import Mathlib

/-!
# Verification of the ContentForge core

A shallow embedding of the content-generation core (table parsing/building,
text segmentation, keyword highlighting, prompt construction, and the retrying
API client with batch orchestration), together with theorems settling the
specification claims.

Python strings are modelled as Lean `String` (a wrapper around `List Char`),
with the Python primitives (`str.strip`, `str.split`, `str.join`, `int(...)`,
`re.sub` with `IGNORECASE`) re-implemented as executable functions on the
underlying character lists.  Case conversion and digit recognition are
modelled for the ASCII range, which covers all values these claims quantify
over.
-/

/-! ## Python string primitives -/

/-- Characters stripped by Python `str.strip()` (the ASCII whitespace set). -/
def isPySpace (c : Char) : Bool :=
  c = ' ' || c = '\t' || c = '\n' || c = '\r' || c = '\x0b' || c = '\x0c'

/-- `str.strip()` on the character list: drop whitespace from both ends. -/
def stripChars (l : List Char) : List Char :=
  ((l.dropWhile isPySpace).reverse.dropWhile isPySpace).reverse

/-- Python `s.strip()`. -/
def pyStrip (s : String) : String :=
  String.mk (stripChars s.data)

/-- Python `s.split(sep)` for a one-character separator, keeping empty fields. -/
def splitChar (c : Char) : List Char → List (List Char)
  | [] => [[]]
  | x :: xs =>
    if x = c then [] :: splitChar c xs
    else
      match splitChar c xs with
      | [] => [[x]]
      | y :: ys => (x :: y) :: ys

/-- Python `s.split(c)` at the `String` level. -/
def pySplit (s : String) (c : Char) : List String :=
  (splitChar c s.data).map String.mk

/-- Python `sep.join(parts)`. -/
def joinSep (sep : String) : List String → String
  | [] => ""
  | [a] => a
  | a :: rest => a ++ sep ++ joinSep sep rest

/-- Decimal value of an ASCII digit character. -/
def digitVal (c : Char) : Option Nat :=
  if '0' ≤ c ∧ c ≤ '9' then some (c.toNat - '0'.toNat) else none

/-- Digits after the first one, allowing single interior underscores as
Python `int()` does (`"1_0"` parses, `"1__0"`, `"1_"` do not). -/
def parseDigitsRest : List Char → Nat → Option Nat
  | [], acc => some acc
  | '_' :: rest, acc =>
    match rest with
    | c :: rest' =>
      match digitVal c with
      | some d => parseDigitsRest rest' (acc * 10 + d)
      | none => none
    | [] => none
  | c :: rest, acc =>
    match digitVal c with
    | some d => parseDigitsRest rest (acc * 10 + d)
    | none => none

/-- A non-empty digit run (first character must be a digit). -/
def parseDigits : List Char → Option Nat
  | c :: rest =>
    match digitVal c with
    | some d => parseDigitsRest rest d
    | none => none
  | [] => none

/-- Python `int(s)` on a string: surrounding whitespace, an optional sign,
then decimal digits (ASCII model).  `none` models `ValueError`. -/
def pyIntParse (s : String) : Option Int :=
  match stripChars s.data with
  | '+' :: rest => (parseDigits rest).map Int.ofNat
  | '-' :: rest => (parseDigits rest).map (fun n => -(n : Int))
  | rest => (parseDigits rest).map Int.ofNat

/-! ## Data model: table columns and rows (src/core/models.py) -/

/-- `TableColumn` from src/core/models.py. -/
structure TableColumn where
  name : String
  header : String
  placeholder : String := ""
  type : String := "text"
deriving DecidableEq, Repr

/-- Python `dict` assignment `d[k] = v`: overwrite in place, else append. -/
def dictInsert {α : Type} (d : List (String × α)) (k : String) (v : α) :
    List (String × α) :=
  match d with
  | [] => [(k, v)]
  | (k', v') :: rest =>
    if k' = k then (k', v) :: rest else (k', v') :: dictInsert rest k v

/-- Python `dict.get(k, default)`. -/
def dictGet {α : Type} (d : List (String × α)) (k : String) (default : α) : α :=
  match d with
  | [] => default
  | (k', v) :: rest => if k' = k then v else dictGet rest k default

/-- `TableRow` from src/core/models.py: a dict from column name to value,
modelled as an insertion-ordered association list. -/
structure TableRow where
  values : List (String × String) := []
deriving DecidableEq, Repr

/-- `TableRow.get` from src/core/models.py. -/
def TableRow.get (row : TableRow) (column_name : String) (default : String := "") :
    String :=
  dictGet row.values column_name default

/-! ## Table parsing (src/utils/text.py) -/

/-- The dict built for one parsed line:
`for i, col in enumerate(columns): values[col.name] = parts[i] if i < len(parts) else ""`. -/
def mkRowValues (columns : List TableColumn) (parts : List String) :
    List (String × String) :=
  (columns.enum).foldl (fun d ic => dictInsert d ic.2.name (parts.getD ic.1 "")) []

/-- `parse_table_data` from src/utils/text.py: split the stripped raw text on
newlines; skip blank lines and lines without a pipe; split each kept line on
the pipe, strip every field, and keep the line only when it has at least as
many fields as configured columns. -/
def parse_table_data (raw_data : String) (columns : List TableColumn) :
    List TableRow :=
  (pySplit (pyStrip raw_data) '\n').foldl
    (fun rows line0 =>
      let line := pyStrip line0
      if line = "" || !(line.data.contains '|') then rows
      else
        let parts := (pySplit line '|').map pyStrip
        if columns.length ≤ parts.length then
          rows ++ [⟨mkRowValues columns parts⟩]
        else rows)
    []

/-! ## Star rendering and Markdown table building (src/generators/markdown.py;
`value_to_stars` is duplicated verbatim in src/generators/html.py) -/

/-- `value_to_stars`: parse the stripped value as an integer, clamp to `[1,5]`,
render that many star glyphs; on parse failure return the value unchanged. -/
def value_to_stars (value : String) : String :=
  match pyIntParse (pyStrip value) with
  | some num => String.mk (List.replicate (min (max num 1) 5).toNat '⭐')
  | none => value

/-- The cell text rendered for `row` under `col` in a table builder. -/
def renderCell (row : TableRow) (col : TableColumn) : String :=
  let v := TableRow.get row col.name ""
  if col.type = "stars" then value_to_stars v else v

/-- `build_table_md` from src/generators/markdown.py. -/
def build_table_md (rows : List TableRow) (columns : List TableColumn) : String :=
  if rows = [] ∨ columns = [] then ""
  else
    let headerLine := "| " ++ joinSep " | " (columns.map TableColumn.header) ++ " |"
    let sepLine := "| " ++ joinSep " | " (columns.map fun _ => "---") ++ " |"
    let dataLines := rows.map fun row =>
      "| " ++ joinSep " | " (columns.map fun col => renderCell row col) ++ " |"
    joinSep "\n" (headerLine :: sepLine :: dataLines)

/-! ## Keyword highlighting (src/generators/html.py, src/generators/markdown.py)

`re.sub(re.escape(keyword), lambda m: wrap(m.group()), text, flags=IGNORECASE)`
is modelled as a literal, case-insensitive, leftmost non-overlapping
substitution.  Case folding is modelled with `Char.toLower` (ASCII). -/

/-- Try to match `kw` case-insensitively as a prefix of `text`; on success
return the actually matched characters (original casing) and the remainder. -/
def ciPrefix : List Char → List Char → Option (List Char × List Char)
  | [], text => some ([], text)
  | _ :: _, [] => none
  | k :: ks, c :: cs =>
    if c.toLower = k.toLower then
      (ciPrefix ks cs).map fun mr => (c :: mr.1, mr.2)
    else none

/-- Does `kw` occur case-insensitively anywhere in `text`? -/
def ciOccurs (kw : List Char) (text : List Char) : Bool :=
  match text with
  | [] => (ciPrefix kw []).isSome
  | _ :: rest => (ciPrefix kw text).isSome || ciOccurs kw rest

/-- Worker for the substitution, structurally recursive on a fuel that starts
at `text.length` (each step consumes at least one character).  The matched
characters `m` are emitted verbatim between `pre` and `post`, preserving the
original casing as `m.group()` does. -/
def subCIFuel (kw pre post : List Char) : Nat → List Char → List Char
  | _, [] => if kw = [] then pre ++ post else []
  | 0, text => text
  | fuel + 1, c :: rest =>
    if kw = [] then pre ++ post ++ c :: subCIFuel kw pre post fuel rest
    else
      match ciPrefix kw (c :: rest) with
      | some (m, r) => pre ++ m ++ post ++ subCIFuel kw pre post fuel r
      | none => c :: subCIFuel kw pre post fuel rest

/-- One `pattern.sub(...)` call wrapping every case-insensitive occurrence of
`kw` in `pre …match… post`. -/
def reSubCI (kw pre post text : String) : String :=
  String.mk (subCIFuel kw.data pre.data post.data text.data.length text.data)

/-- `highlight_keywords_md` from src/generators/markdown.py: bold markers. -/
def highlight_keywords_md (text : String) (keywords : List String) : String :=
  if keywords = [] then text
  else keywords.foldl (fun t keyword => reSubCI keyword "**" "**" t) text

/-- `highlight_keywords` from src/generators/html.py: `<b>` markers. -/
def highlight_keywords (text : String) (keywords : List String) : String :=
  if keywords = [] then text
  else keywords.foldl (fun t keyword => reSubCI keyword "<b>" "</b>" t) text

/-! ## Text segmentation (src/generators/html.py `text_to_html`,
src/generators/markdown.py `text_to_md`)

The two functions are line-for-line identical except for how a flushed
paragraph or list buffer is rendered, so the shared buffer-and-flush machine
is defined once, parameterised by the two renderers. -/

/-- The mutable state of the segmentation loop: the accumulated `paragraphs`
output plus the `current_list` and `current_para` buffers. -/
structure SegState where
  paragraphs : List String := []
  current_list : List String := []
  current_para : List String := []
deriving DecidableEq, Repr

/-- `flush_para()`: render and append the paragraph buffer if non-empty. -/
def flushPara (paraOut : List String → String) (st : SegState) : SegState :=
  if st.current_para = [] then st
  else { st with
    paragraphs := st.paragraphs ++ [paraOut st.current_para]
    current_para := [] }

/-- `flush_list()`: render and append the list buffer if non-empty. -/
def flushList (listOut : List String → String) (st : SegState) : SegState :=
  if st.current_list = [] then st
  else { st with
    paragraphs := st.paragraphs ++ [listOut st.current_list]
    current_list := [] }

/-- `line.startswith(('• ', '- ', '* '))`. -/
def isBulletLine : List Char → Bool
  | '•' :: ' ' :: _ => true
  | '-' :: ' ' :: _ => true
  | '*' :: ' ' :: _ => true
  | _ => false

/-- The body of the `for line in text.split('\n')` loop. -/
def segLine (paraOut listOut : List String → String) (st : SegState)
    (line0 : String) : SegState :=
  let line := pyStrip line0
  if line = "" then flushList listOut (flushPara paraOut st)
  else if isBulletLine line.data then
    let st := flushPara paraOut st
    { st with current_list := st.current_list ++ [String.mk (line.data.drop 2)] }
  else
    let st := flushList listOut st
    { st with current_para := st.current_para ++ [line] }

/-- Run the loop over all lines and perform the final two flushes, returning
the accumulated `paragraphs` list. -/
def segRun (paraOut listOut : List String → String) (lines : List String) :
    List String :=
  (flushList listOut (flushPara paraOut
    (lines.foldl (segLine paraOut listOut) {}))).paragraphs

/-- Markdown paragraph rendering: `" ".join(current_para)`. -/
def mdParaOut (ls : List String) : String := joinSep " " ls

/-- Markdown list rendering: `"\n".join(f"- {item}" ...)`. -/
def mdListOut (items : List String) : String :=
  joinSep "\n" (items.map fun item => "- " ++ item)

/-- HTML paragraph rendering: `f"<p>{' '.join(current_para)}</p>"`. -/
def htmlParaOut (ls : List String) : String := "<p>" ++ joinSep " " ls ++ "</p>"

/-- HTML list rendering: `f"<ul>\n{items}\n</ul>"` over `  <li>…</li>` lines. -/
def htmlListOut (items : List String) : String :=
  "<ul>\n" ++ joinSep "\n" (items.map fun item => "  <li>" ++ item ++ "</li>") ++ "\n</ul>"

/-- `text_to_md` from src/generators/markdown.py. -/
def text_to_md (text : String) (keywords : List String := []) : String :=
  let text := pyStrip text
  if text = "" then ""
  else
    let md := joinSep "\n\n" (segRun mdParaOut mdListOut (pySplit text '\n'))
    if keywords = [] then md else highlight_keywords_md md keywords

/-- `text_to_html` from src/generators/html.py. -/
def text_to_html (text : String) (keywords : List String := []) : String :=
  let text := pyStrip text
  if text = "" then ""
  else
    let html := joinSep "\n" (segRun htmlParaOut htmlListOut (pySplit text '\n'))
    if keywords = [] then html else highlight_keywords html keywords

/-! ### Specification-side segmentation (for the refinement claim C5)

Modelled from the spec's words: a blank line flushes the pending paragraph
then the pending list; a bullet line flushes the pending paragraph and is
appended to the list buffer; any other non-blank line flushes the pending
list and is appended to the paragraph buffer; at end of input both buffers
are flushed in the same order.  Blocks record the segmentation before any
format-specific rendering. -/

/-- A format-independent output block. -/
inductive Block where
  | para (lines : List String)
  | bullets (items : List String)
deriving DecidableEq, Repr

/-- State of the specification-side machine. -/
structure BlockState where
  blocks : List Block := []
  curList : List String := []
  curPara : List String := []
deriving DecidableEq, Repr

/-- Flush the pending paragraph into a block. -/
def bFlushPara (st : BlockState) : BlockState :=
  if st.curPara = [] then st
  else { st with blocks := st.blocks ++ [Block.para st.curPara], curPara := [] }

/-- Flush the pending list into a block. -/
def bFlushList (st : BlockState) : BlockState :=
  if st.curList = [] then st
  else { st with blocks := st.blocks ++ [Block.bullets st.curList], curList := [] }

/-- One line of the specification-side machine. -/
def bSegLine (st : BlockState) (line0 : String) : BlockState :=
  let line := pyStrip line0
  if line = "" then bFlushList (bFlushPara st)
  else if isBulletLine line.data then
    let st := bFlushPara st
    { st with curList := st.curList ++ [String.mk (line.data.drop 2)] }
  else
    let st := bFlushList st
    { st with curPara := st.curPara ++ [line] }

/-- Segment a list of lines into paragraph/list blocks per the spec. -/
def segmentSpec (lines : List String) : List Block :=
  (bFlushList (bFlushPara (lines.foldl bSegLine {}))).blocks

/-! ## Configuration model (src/core/models.py)

`keyword_density` is omitted: it is a floating-point setting unused by every
function modelled here. -/

/-- `Section` from src/core/models.py. -/
structure Section where
  heading : String
  words : Nat := 100
deriving DecidableEq, Repr

/-- `TableConfig` from src/core/models.py. -/
structure TableConfig where
  enabled : Bool := false
  rows : Nat := 0
  columns : List TableColumn := []
deriving DecidableEq, Repr

/-- `PlaceholderConfig` from src/core/models.py. -/
structure PlaceholderConfig where
  item_prefix : String := "ITEM"
  value_prefix : String := "VALUE"
deriving DecidableEq, Repr

/-- `SEOConfig` from src/core/models.py. -/
structure SEOConfig where
  primary_keyword : String := ""
  secondary_keywords : List String := []
  tone : String := "informative"
  target_audience : String := ""
deriving DecidableEq, Repr

/-- `SiteConfig` from src/core/models.py. -/
structure SiteConfig where
  name : String := ""
  url : String := ""
  author : String := ""
deriving DecidableEq, Repr

/-- `ContentConfig` from src/core/models.py (the fields the core consumes). -/
structure ContentConfig where
  title : String
  intro_words : Nat
  conclusion_words : Nat
  sections : List Section
  table : TableConfig
  model : String
  placeholders : PlaceholderConfig
  seo : SEOConfig := {}
  site : SiteConfig := {}
  system_prompt : String := ""
  output : String := "html"
  language : String := "English"
deriving DecidableEq, Repr

/-- `ContentConfig.headings` property. -/
def ContentConfig.headings (config : ContentConfig) : List String :=
  config.sections.map Section.heading

/-! ## Prompt builders (src/generators/prompts.py) -/

/-- Python `s.lower()` (ASCII model). -/
def pyLower (s : String) : String := String.mk (s.data.map Char.toLower)

/-- Python substring test `needle in hay`. -/
def containsSub (needle hay : List Char) : Bool :=
  match hay with
  | [] => needle.isEmpty
  | _ :: rest => needle.isPrefixOf hay || containsSub needle rest

/-- `build_intro_prompt` from src/generators/prompts.py. -/
def build_intro_prompt (title : String) (headings : List String)
    (intro_words : Nat) (seo : SEOConfig) (language : String := "English") :
    String :=
  let topics := joinSep ", " (headings.take 3)
  let keyword_instruction :=
    if seo.primary_keyword ≠ "" then
      "\n- Use the primary keyword (" ++ seo.primary_keyword ++
        ") naturally in the first 2 sentences"
    else ""
  let audience_instruction :=
    if seo.target_audience ≠ "" then
      "\n- Target audience: " ++ seo.target_audience
    else ""
  "Write an INTRODUCTION paragraph for a blog post about \"" ++ title ++
    "\".\n\nHOOK STRATEGY (choose one):\n- Start with a surprising statistic or fact\n- Describe a problem the reader faces\n- Ask a curiosity-provoking question\n\nCONTENT REQUIREMENTS:\n- Approximately " ++
    toString intro_words ++
    " words\n- Explain what the article is about and what value it provides to the reader\n- Topics to be covered: " ++
    topics ++ keyword_instruction ++ audience_instruction ++
    "\n\nAVOID:\n- Cliché openings like \"In this article\"\n- Filler phrases like \"Nowadays\", \"In recent years\"\n- Exaggerated promises\n\nIMPORTANT: Write plain text only. Do not use HTML tags.\n\nLANGUAGE: Write the content in " ++
    language ++ "."

/-- `build_table_prompt` from src/generators/prompts.py. -/
def build_table_prompt (title : String) (table_config : TableConfig)
    (placeholders : PlaceholderConfig) (language : String := "English") :
    String :=
  let row_count := table_config.rows
  let columns := table_config.columns
  let column_names := joinSep " | " (columns.map TableColumn.name)
  let placeholder_rules := columns.filterMap fun col =>
    if col.placeholder ≠ "" then
      some ("- For " ++ col.header ++ " use [" ++ col.placeholder ++
        "_1], [" ++ col.placeholder ++ "_2]... placeholders")
    else none
  let placeholder_text :=
    if placeholder_rules ≠ [] then joinSep "\n" placeholder_rules else ""
  let example_values := columns.map fun col =>
    if col.placeholder ≠ "" then "[" ++ col.placeholder ++ "_1]"
    else if col.type = "stars" then "4"
    else "example"
  let example_row := joinSep " | " example_values
  "Provide " ++ toString row_count ++
    " item information for the topic \"" ++ title ++
    "\".\n\nFORMAT: One item per line, separated by pipe (|).\nCOLUMNS: " ++
    column_names ++ "\n\nRULES:\n" ++ placeholder_text ++
    "\n- Use numbers 1-5 for rating column\n\nEXAMPLE OUTPUT:\n" ++
    example_row ++ "\n\nWrite ONLY " ++ toString row_count ++
    " lines of data, nothing else.\n\nLANGUAGE: Write the content in " ++
    language ++ "."

/-- `_get_section_perspective` from src/generators/prompts.py: a fixed
five-entry table keyed by section index, with a generic fallback (`heading`
is accepted and ignored, as in the source). -/
def _get_section_perspective (heading : String) (section_index : Nat) : String :=
  match heading, section_index with
  | _, 0 => "Basic information and first steps for beginners"
  | _, 1 => "Practical comparison and evaluation criteria"
  | _, 2 => "Advanced tips and maximum benefit strategies"
  | _, 3 => "Common mistakes and how to avoid them"
  | _, 4 => "Future trends and things to watch out for"
  | _, _ => "In-depth analysis and concrete examples"

/-- `build_section_prompt` from src/generators/prompts.py. -/
def build_section_prompt (title heading : String)
    (section_words section_index total_sections : Nat)
    (previous_topics : List String) (seo : SEOConfig)
    (placeholders : PlaceholderConfig) (language : String := "English") :
    String :=
  let perspective := _get_section_perspective heading section_index
  let avoid_topics :=
    if previous_topics ≠ [] then
      "\n- DO NOT REPEAT (already covered): " ++ joinSep ", " previous_topics
    else ""
  let keyword_instruction :=
    if seo.primary_keyword ≠ "" then
      "\n- Primary keyword (" ++ seo.primary_keyword ++
        "): Use naturally once in this section"
    else ""
  let secondary_instruction :=
    if seo.secondary_keywords ≠ [] then
      let relevant_kw := seo.secondary_keywords.filter fun kw =>
        containsSub (pyLower kw).data (pyLower heading).data
      if relevant_kw ≠ [] then
        "\n- Related keywords (use naturally): " ++ joinSep ", " relevant_kw
      else ""
    else ""
  let tone_desc := dictGet
    [("informative", "Informative and objective"),
     ("conversational", "Friendly and conversational"),
     ("professional", "Professional and formal")] seo.tone "Informative"
  let placeholder_hint :=
    "[" ++ PlaceholderConfig.item_prefix placeholders ++ "_NAME], [" ++
      PlaceholderConfig.value_prefix placeholders ++ "_VALUE]"
  "Write original content about \"" ++ heading ++ "\".\n\nMAIN TITLE: " ++
    title ++ "\nSECTION: " ++ toString (section_index + 1) ++ "/" ++
    toString total_sections ++ "\nPERSPECTIVE: " ++ perspective ++
    "\nTONE: " ++ tone_desc ++
    "\n\nCONTENT REQUIREMENTS:\n- Approximately " ++ toString section_words ++
    " words\n- At least 1 concrete example or numerical data\n- At least 2 practical, actionable tips\n- For bullet lists use: \"• \"" ++
    keyword_instruction ++ secondary_instruction ++
    "\n- Use placeholders: " ++ placeholder_hint ++
    "\n\nAVOID:" ++ avoid_topics ++
    "\n- DO NOT REPEAT MAIN TITLE: Don't use \"" ++ title ++
    "\" within the section\n- Generic phrases: \"quality service\", \"reliable platform\", \"professional team\"\n- Exaggerated claims: \"the best\", \"absolutely\", \"must\", \"guaranteed\"\n- Filler sentences: \"as everyone knows\", \"undoubtedly\"\n\nIMPORTANT: Write plain text only. Do not use HTML tags.\n\nLANGUAGE: Write the content in " ++
    language ++ "."

/-- `build_conclusion_prompt` from src/generators/prompts.py. -/
def build_conclusion_prompt (title : String) (headings : List String)
    (conclusion_words : Nat) (seo : SEOConfig) (language : String := "English") :
    String :=
  let topics := joinSep ", " headings
  let keyword_instruction :=
    if seo.primary_keyword ≠ "" then
      "\n- Use the primary keyword (" ++ seo.primary_keyword ++ ") once more"
    else ""
  "Write a CONCLUSION paragraph for an article about \"" ++ title ++
    "\".\n\nTOPICS COVERED IN THE ARTICLE: " ++ topics ++
    "\n\nCONTENT REQUIREMENTS:\n- Approximately " ++
    toString conclusion_words ++
    " words\n- Summarize main points in 1-2 sentences (synthesis, not repetition)\n- Suggest a concrete next step for the reader (CTA)\n- End with a positive but realistic tone" ++
    keyword_instruction ++
    "\n\nAVOID:\n- Starting with \"In conclusion\"\n- Repeating exactly what was said in the article\n- Exaggerated promises\n\nIMPORTANT: Write plain text only. Do not use HTML tags.\n\nLANGUAGE: Write the content in " ++
    language ++ "."

/-- The task-list construction of `generate_all_content` (src/main.py):
intro task, optional table task, one `section_<i>` task per configured
section (passing `headings[:i]` as the already-covered topics), then the
conclusion task.  This part of the coroutine is pure: it runs before any
network call and depends only on the configuration. -/
def generateAllTasks (config : ContentConfig) : List (String × String) :=
  let headings := config.headings
  let table_rows := if config.table.enabled then config.table.rows else 0
  let tasks := [("intro",
    build_intro_prompt config.title headings config.intro_words config.seo
      config.language)]
  let tasks := if 0 < table_rows then
      tasks ++ [("table",
        build_table_prompt config.title config.table config.placeholders
          config.language)]
    else tasks
  let tasks := tasks ++ config.sections.enum.map fun is' =>
    ("section_" ++ toString is'.1,
      build_section_prompt config.title is'.2.heading is'.2.words is'.1
        config.sections.length (headings.take is'.1) config.seo
        config.placeholders config.language)
  tasks ++ [("conclusion",
    build_conclusion_prompt config.title headings config.conclusion_words
      config.seo config.language)]

/-! ## API client (src/api/client.py)

The network is abstracted into an oracle `env : Nat → AttemptResult` giving,
for each attempt number, what the request round produces:
a transport failure (`aiohttp.ClientError`, which also covers
`raise_for_status`), a parsed JSON response body, or any other exception.
The progress bar, the backoff delays, and the number of attempts executed are
recorded as an explicit trace; Python's exception messages for `TypeError`
are abstracted to a fixed text. -/

/-- Retry settings from src/core/constants.py. -/
def MAX_RETRIES : Nat := 3

/-- `RETRY_DELAY` (seconds) from src/core/constants.py. -/
def RETRY_DELAY : Nat := 2

/-- A JSON value, as returned by `response.json()`. -/
inductive JsonVal where
  | str (s : String)
  | num (n : Int)
  | bool (b : Bool)
  | null
  | arr (elems : List JsonVal)
  | obj (fields : List (String × JsonVal))

/-- A Python-level exception raised while subscripting the response. -/
inductive PyErr where
  | keyError (rendered : String)
  | otherExc (msg : String)
deriving DecidableEq, Repr

/-- `j[k]` for a string key: `KeyError` on a dict without the key (rendered
as Python renders `str(KeyError('k'))`, with quotes), `TypeError` otherwise. -/
def getStrKey (j : JsonVal) (k : String) : Except PyErr JsonVal :=
  match j with
  | .obj fields =>
    match fields.lookup k with
    | some v => .ok v
    | none => .error (.keyError ("'" ++ k ++ "'"))
  | _ => .error (.otherExc "TypeError")

/-- `j[0]`: `IndexError` on an empty list, `KeyError(0)` on a dict (rendered
`"0"`), `TypeError` otherwise. -/
def getIndexZero (j : JsonVal) : Except PyErr JsonVal :=
  match j with
  | .arr elems =>
    match elems with
    | v :: _ => .ok v
    | [] => .error (.otherExc "list index out of range")
  | .obj _ => .error (.keyError "0")
  | _ => .error (.otherExc "TypeError")

/-- `result["choices"][0]["message"]["content"]`. -/
def extractContent (result : JsonVal) : Except PyErr JsonVal := do
  let choices ← getStrKey result "choices"
  let first ← getIndexZero choices
  let message ← getStrKey first "message"
  getStrKey message "content"

/-- The exceptions `generate` can raise (src/core/exceptions.py plus the
built-in `RuntimeError`); `other` stands for any exception kept verbatim by
the catch-all clause. -/
inductive GenError where
  | apiConnection (msg : String)
  | apiResponse (msg : String)
  | runtime (msg : String)
  | other (msg : String)
deriving DecidableEq, Repr

/-- Python `str(e)` for the exceptions above (each is constructed with its
message as the single argument). -/
def GenError.str : GenError → String
  | .apiConnection msg => msg
  | .apiResponse msg => msg
  | .runtime msg => msg
  | .other msg => msg

/-- `str(last_error)` where `last_error: Optional[Exception]`. -/
def lastErrorStr : Option GenError → String
  | none => "None"
  | some e => e.str

/-- What one request round produces, as seen by the `try` block. -/
inductive AttemptResult where
  | connError (msg : String)
  | jsonResponse (j : JsonVal)
  | otherError (msg : String)

/-- Did the attempt get as far as `response.json()` (the point where
`pbar.update(1)` runs)? -/
def isJsonResp : AttemptResult → Bool
  | .jsonResponse _ => true
  | _ => false

/-- The outcome of one iteration of the retry loop: the returned content, or
the exception captured in `last_error` by the matching `except` clause. -/
def attemptOutcome : AttemptResult → Except GenError JsonVal
  | .connError m => .error (.apiConnection ("Connection error: " ++ m))
  | .otherError m => .error (.other m)
  | .jsonResponse j =>
    match extractContent j with
    | .ok v => .ok v
    | .error (.keyError rendered) =>
      .error (.apiResponse ("Unexpected API response: " ++ rendered))
    | .error (.otherExc m) => .error (.other m)

/-- The observable trace of one `generate` call. -/
structure GenTrace where
  result : Except GenError JsonVal
  ticks : Nat
  delays : List Nat
  attemptsRun : Nat

/-- The `for attempt in range(MAX_RETRIES)` loop of
`OpenRouterClient.generate`, with `remaining` counting the iterations left.
Each iteration classifies the attempt, ticks the progress bar exactly when a
JSON response was parsed (before content extraction), returns on success, and
otherwise records `last_error`, sleeping `RETRY_DELAY * (attempt + 1)` only
when `attempt < MAX_RETRIES - 1`. -/
def generateLoop (hasPbar : Bool) (env : Nat → AttemptResult) :
    Nat → Nat → Option GenError → Nat → List Nat → GenTrace
  | 0, attempt, last_error, ticks, delays =>
    { result := .error (.apiConnection
        ("API call failed after " ++ toString MAX_RETRIES ++ " attempts: " ++
          lastErrorStr last_error))
      ticks := ticks, delays := delays, attemptsRun := attempt }
  | remaining + 1, attempt, _, ticks, delays =>
    let ticks := if hasPbar && isJsonResp (env attempt) then ticks + 1 else ticks
    match attemptOutcome (env attempt) with
    | .ok v =>
      { result := .ok v, ticks := ticks, delays := delays,
        attemptsRun := attempt + 1 }
    | .error e =>
      let delays := if attempt < MAX_RETRIES - 1 then
          delays ++ [RETRY_DELAY * (attempt + 1)]
        else delays
      generateLoop hasPbar env remaining (attempt + 1) (some e) ticks delays

/-- `OpenRouterClient.generate`: fail with `RuntimeError` when the session was
never opened, otherwise run up to `MAX_RETRIES` attempts. -/
def generate (sessionOpen hasPbar : Bool) (env : Nat → AttemptResult) :
    GenTrace :=
  if !sessionOpen then
    { result := .error (.runtime "Client must be used with context manager")
      ticks := 0, delays := [], attemptsRun := 0 }
  else
    generateLoop hasPbar env MAX_RETRIES 0 none 0 []

/-- The result-collection loop of `generate_batch`: walk the gathered results
in task order, re-raise the first exception, otherwise accumulate the
name-to-content dict. -/
def collectBatch (results : List (String × Except GenError JsonVal))
    (output : List (String × JsonVal)) :
    Except GenError (List (String × JsonVal)) :=
  match results with
  | [] => .ok output
  | (_, .error e) :: _ => .error e
  | (name, .ok content) :: rest => collectBatch rest (dictInsert output name content)

/-- `OpenRouterClient.generate_batch`: run `generate` for every named task
(the per-task network behaviour is the oracle `env name`), gather the results
in task order, then collect them.  A shared progress bar accumulates the
ticks of every task. -/
def generate_batch (sessionOpen hasPbar : Bool)
    (tasks : List (String × String)) (env : String → Nat → AttemptResult) :
    Except GenError (List (String × JsonVal)) :=
  let results := tasks.map fun t =>
    (t.1, (generate sessionOpen hasPbar (env t.1)).result)
  collectBatch results []

/-- Total progress-bar ticks observed across a batch. -/
def batchTicks (sessionOpen hasPbar : Bool) (tasks : List (String × String))
    (env : String → Nat → AttemptResult) : Nat :=
  (tasks.map fun t => (generate sessionOpen hasPbar (env t.1)).ticks).sum

/-! ## Helper lemmas -/

theorem data_mk (l : List Char) : (String.mk l).data = l := rfl

theorem mk_data (s : String) : String.mk s.data = s := rfl

theorem getD_take_of_lt {α} (d : α) :
    ∀ (l : List α) (n i : Nat), i < n → (l.take n).getD i d = l.getD i d := by
  intro l
  induction l with
  | nil => intro n i _; simp
  | cons a as ih =>
    intro n i hin
    cases n with
    | zero => omega
    | succ n =>
      cases i with
      | zero => simp
      | succ i => simpa using ih n i (by omega)

theorem mkRowValuesAux_take (parts : List String) (n : Nat) :
    ∀ (cols : List TableColumn) (i : Nat) (d : List (String × String)),
      i + cols.length ≤ n →
      (List.enumFrom i cols).foldl
          (fun d ic => dictInsert d ic.2.name ((parts.take n).getD ic.1 "")) d =
        (List.enumFrom i cols).foldl
          (fun d ic => dictInsert d ic.2.name (parts.getD ic.1 "")) d := by
  intro cols
  induction cols with
  | nil => intro i d _; rfl
  | cons c cs ih =>
    intro i d h
    have hlen : i < n := by
      simp only [List.length_cons] at h
      omega
    simp only [List.enumFrom_cons, List.foldl_cons]
    rw [getD_take_of_lt "" parts n i hlen]
    exact ih (i + 1) _ (by simp only [List.length_cons] at h; omega)

/-- Extra trailing fields beyond the column count never influence the row. -/
theorem mkRowValues_take (cols : List TableColumn) (parts : List String) :
    mkRowValues cols parts = mkRowValues cols (parts.take cols.length) := by
  unfold mkRowValues
  rw [show cols.enum = List.enumFrom 0 cols from rfl]
  exact (mkRowValuesAux_take parts cols.length cols 0 [] (by omega)).symm

/-- The per-line keep/drop decision of `parse_table_data`, with the kept row
built from only the first `columns.length` fields. -/
def parseLineFn (columns : List TableColumn) (line0 : String) : Option TableRow :=
  let line := pyStrip line0
  if line = "" || !(line.data.contains '|') then none
  else
    let parts := (pySplit line '|').map pyStrip
    if columns.length ≤ parts.length then
      some ⟨mkRowValues columns (parts.take columns.length)⟩
    else none

theorem parse_foldl_filterMap (columns : List TableColumn) :
    ∀ (lines : List String) (acc : List TableRow),
      lines.foldl
        (fun rows line0 =>
          let line := pyStrip line0
          if line = "" || !(line.data.contains '|') then rows
          else
            let parts := (pySplit line '|').map pyStrip
            if columns.length ≤ parts.length then
              rows ++ [⟨mkRowValues columns parts⟩]
            else rows)
        acc =
      acc ++ lines.filterMap (parseLineFn columns) := by
  intro lines
  induction lines with
  | nil => intro acc; simp
  | cons hd tl ih =>
    intro acc
    rw [List.foldl_cons, List.filterMap_cons]
    by_cases hc1 : (pyStrip hd = "" || !((pyStrip hd).data.contains '|')) = true
    · rw [ih]
      simp only [parseLineFn, hc1, if_true]
    · by_cases hc2 :
        columns.length ≤ ((pySplit (pyStrip hd) '|').map pyStrip).length
      · rw [ih]
        simp only [parseLineFn, hc1, if_false, Bool.false_eq_true, hc2, if_true,
          if_pos hc2]
        rw [← mkRowValues_take]
        simp
      · rw [ih]
        simp only [parseLineFn, hc1, hc2]
        simp [hc2]

/-- `parse_table_data` as a per-line filter-map. -/
theorem parse_table_data_eq_filterMap (raw : String) (columns : List TableColumn) :
    parse_table_data raw columns =
      (pySplit (pyStrip raw) '\n').filterMap (parseLineFn columns) := by
  unfold parse_table_data
  simpa using parse_foldl_filterMap columns (pySplit (pyStrip raw) '\n') []

/-! ## Claim C6: table-line filtering -/

/-- C6: `parse_table_data` keeps a line only if splitting it on the pipe
yields at least as many trimmed fields as configured columns; only the first
`columns.length` fields are mapped positionally to the column names (extra
trailing fields are ignored via the `take`), and short lines are dropped
silently — the whole computation is a total filter-map, never an error. -/
theorem table_line_filtering_claim :
    (∀ (raw : String) (columns : List TableColumn),
      parse_table_data raw columns =
        (pySplit (pyStrip raw) '\n').filterMap (parseLineFn columns))
    ∧ (∀ (columns : List TableColumn) (line0 : String),
        pyStrip line0 ≠ "" →
        (pyStrip line0).data.contains '|' = true →
        columns.length ≤ ((pySplit (pyStrip line0) '|').map pyStrip).length →
        parseLineFn columns line0 =
          some ⟨mkRowValues columns
            (((pySplit (pyStrip line0) '|').map pyStrip).take columns.length)⟩)
    ∧ (∀ (columns : List TableColumn) (line0 : String),
        ((pySplit (pyStrip line0) '|').map pyStrip).length < columns.length →
        parseLineFn columns line0 = none) := by
  refine ⟨parse_table_data_eq_filterMap, ?_, ?_⟩
  · intro columns line0 h1 h2 h3
    rw [List.length_map] at h3
    simp only [parseLineFn, h1, h2]
    simp [h3]
  · intro columns line0 h3
    rw [List.length_map] at h3
    by_cases hc1 : (pyStrip line0 = "" || !((pyStrip line0).data.contains '|')) = true
    · simp only [parseLineFn, hc1, if_true]
    · simp only [parseLineFn, hc1, Bool.false_eq_true, if_false]
      simp [Nat.not_le.mpr h3]

/-- C6 witness: a two-column schema against a raw text with one short line
(dropped), one exact line, and one over-long line (extras ignored). -/
theorem table_line_filtering_claim_witness :
    (parse_table_data "a | b | c\nshort\nd | e"
        [{ name := "x", header := "X" }, { name := "y", header := "Y" }] =
      (pySplit (pyStrip "a | b | c\nshort\nd | e") '\n').filterMap
        (parseLineFn
          [{ name := "x", header := "X" }, { name := "y", header := "Y" }]))
    ∧ (pyStrip "a | b | c" ≠ ""
      ∧ (pyStrip "a | b | c").data.contains '|' = true
      ∧ ([{ name := "x", header := "X" }, { name := "y", header := "Y" }] :
          List TableColumn).length ≤
          ((pySplit (pyStrip "a | b | c") '|').map pyStrip).length
      ∧ parseLineFn
          [{ name := "x", header := "X" }, { name := "y", header := "Y" }]
          "a | b | c" =
        some ⟨mkRowValues
          [{ name := "x", header := "X" }, { name := "y", header := "Y" }]
          (((pySplit (pyStrip "a | b | c") '|').map pyStrip).take 2)⟩)
    ∧ (((pySplit (pyStrip "short") '|').map pyStrip).length <
        ([{ name := "x", header := "X" }, { name := "y", header := "Y" }] :
          List TableColumn).length
      ∧ parseLineFn
          [{ name := "x", header := "X" }, { name := "y", header := "Y" }]
          "short" = none) :=
  ⟨table_line_filtering_claim.1 "a | b | c\nshort\nd | e" _,
   ⟨by decide, by decide, by decide,
    table_line_filtering_claim.2.1 _ "a | b | c" (by decide) (by decide)
      (by decide)⟩,
   ⟨by decide,
    table_line_filtering_claim.2.2 _ "short" (by decide)⟩⟩

/-! ## Claim C4: star rendering -/

/-- C4: for a value whose stripped text parses as an integer `n`, the output
is `min (max n 1) 5` star glyphs — exactly `n` of them when `1 ≤ n ≤ 5`, one
for `n ≤ 0`, five for `n > 5`, always within `[1,5]`; a non-numeric value
passes through unchanged. -/
theorem star_rendering_claim :
    (∀ (v : String) (n : Int), pyIntParse (pyStrip v) = some n →
      1 ≤ n → n ≤ 5 → (value_to_stars v).data = List.replicate n.toNat '⭐')
    ∧ (∀ (v : String) (n : Int), pyIntParse (pyStrip v) = some n →
      n ≤ 0 → value_to_stars v = "⭐")
    ∧ (∀ (v : String) (n : Int), pyIntParse (pyStrip v) = some n →
      5 < n → (value_to_stars v).data = List.replicate 5 '⭐')
    ∧ (∀ (v : String) (n : Int), pyIntParse (pyStrip v) = some n →
      1 ≤ (value_to_stars v).data.length ∧ (value_to_stars v).data.length ≤ 5)
    ∧ (∀ v : String, pyIntParse (pyStrip v) = none → value_to_stars v = v) := by
  have hval : ∀ (v : String) (n : Int), pyIntParse (pyStrip v) = some n →
      (value_to_stars v).data = List.replicate (min (max n 1) 5).toNat '⭐' := by
    intro v n h
    unfold value_to_stars
    rw [h]
  refine ⟨?_, ?_, ?_, ?_, ?_⟩
  · intro v n h h1 h5
    rw [hval v n h]
    congr 1
    have : max n 1 = n := max_eq_left h1
    rw [this, min_eq_left h5]
  · intro v n h h0
    have := hval v n h
    have hm : max n 1 = 1 := max_eq_right (by omega)
    rw [hm, min_eq_left (by omega)] at this
    exact congrArg String.mk (by simpa using this)
  · intro v n h h5
    rw [hval v n h]
    have hm : max n 1 = n := max_eq_left (by omega)
    rw [hm, min_eq_right (by omega)]
    rfl
  · intro v n h
    rw [hval v n h, List.length_replicate]
    constructor <;> omega
  · intro v h
    unfold value_to_stars
    rw [h]

/-- C4 witness: concrete values `"3"`, `"0"`, `"7"`, `"abc"`. -/
theorem star_rendering_claim_witness :
    (pyIntParse (pyStrip "3") = some 3
      ∧ (value_to_stars "3").data = List.replicate (3 : Int).toNat '⭐')
    ∧ (pyIntParse (pyStrip "0") = some 0 ∧ value_to_stars "0" = "⭐")
    ∧ (pyIntParse (pyStrip "7") = some 7
      ∧ (value_to_stars "7").data = List.replicate 5 '⭐')
    ∧ (pyIntParse (pyStrip "abc") = none ∧ value_to_stars "abc" = "abc") :=
  ⟨⟨by decide,
    star_rendering_claim.1 "3" 3 (by decide) (by decide) (by decide)⟩,
   ⟨by decide, star_rendering_claim.2.1 "0" 0 (by decide) (by decide)⟩,
   ⟨by decide, star_rendering_claim.2.2.1 "7" 7 (by decide) (by decide)⟩,
   ⟨by decide, star_rendering_claim.2.2.2.2 "abc" (by decide)⟩⟩

/-! ## Claim C10: generate without an open session -/

/-- C10: calling `generate` when the session was never opened fails with the
`RuntimeError` immediately: no attempt runs, no progress tick happens, and no
backoff delay is slept, whatever the network would have done. -/
theorem no_session_claim (hasPbar : Bool) (env : Nat → AttemptResult) :
    generate false hasPbar env =
      { result := Except.error (GenError.runtime
          "Client must be used with context manager")
        ticks := 0, delays := [], attemptsRun := 0 } := rfl

/-! ## Claim C7: retry exhaustion -/

/-- C7: when all `MAX_RETRIES` (3) attempts fail, `generate` raises one
composite `APIConnectionError` naming the attempt count and wrapping the
stringified last per-attempt error, and the backoff `RETRY_DELAY * (k+1)` is
slept only after attempts 0 and 1, never after the final attempt. -/
theorem generateLoop_error_step (hb : Bool) (env : Nat → AttemptResult)
    (r attempt : Nat) (le : Option GenError) (ticks : Nat) (delays : List Nat)
    (e : GenError) (h : attemptOutcome (env attempt) = Except.error e) :
    generateLoop hb env (r + 1) attempt le ticks delays =
      generateLoop hb env r (attempt + 1) (some e)
        (if hb && isJsonResp (env attempt) then ticks + 1 else ticks)
        (if attempt < MAX_RETRIES - 1 then
          delays ++ [RETRY_DELAY * (attempt + 1)] else delays) := by
  simp only [generateLoop, h]

theorem retry_exhaustion_claim (env : Nat → AttemptResult) (hasPbar : Bool)
    (e0 e1 e2 : GenError)
    (h0 : attemptOutcome (env 0) = Except.error e0)
    (h1 : attemptOutcome (env 1) = Except.error e1)
    (h2 : attemptOutcome (env 2) = Except.error e2) :
    (generate true hasPbar env).result =
      Except.error (GenError.apiConnection
        ("API call failed after " ++ toString MAX_RETRIES ++ " attempts: " ++
          GenError.str e2))
    ∧ (generate true hasPbar env).delays = [RETRY_DELAY * 1, RETRY_DELAY * 2] := by
  show (generateLoop hasPbar env 3 0 none 0 []).result = _
    ∧ (generateLoop hasPbar env 3 0 none 0 []).delays = _
  rw [show (3 : Nat) = 2 + 1 from rfl,
    generateLoop_error_step hasPbar env 2 0 none 0 [] e0 h0]
  rw [show (2 : Nat) = 1 + 1 from rfl,
    generateLoop_error_step hasPbar env 1 1 _ _ _ e1 h1]
  rw [show (1 : Nat) = 0 + 1 from rfl,
    generateLoop_error_step hasPbar env 0 2 _ _ _ e2 h2]
  simp only [generateLoop]
  refine ⟨rfl, ?_⟩
  simp [MAX_RETRIES, RETRY_DELAY]

/-- C7 witness: every attempt hits a transport error. -/
theorem retry_exhaustion_claim_witness :
    (attemptOutcome ((fun _ => AttemptResult.connError "boom") 0) =
      Except.error (GenError.apiConnection "Connection error: boom"))
    ∧ ((generate true true fun _ => AttemptResult.connError "boom").result =
        Except.error (GenError.apiConnection
          ("API call failed after " ++ toString MAX_RETRIES ++ " attempts: " ++
            GenError.str (GenError.apiConnection "Connection error: boom")))
      ∧ (generate true true fun _ => AttemptResult.connError "boom").delays =
          [RETRY_DELAY * 1, RETRY_DELAY * 2]) :=
  ⟨rfl, retry_exhaustion_claim (fun _ => AttemptResult.connError "boom") true
    _ _ _ rfl rfl rfl⟩

/-! ## Claim C2: the progress callback -/

/-- C2 counterexample: with every attempt returning parsed JSON that lacks
the `choices` field, every attempt fails (the call raises after exhausting
the retries), yet the progress callback was invoked three times — once per
shape-failing attempt — contradicting "invoked only on the success path". -/
theorem progress_callback_counterexample :
    (generate true true fun _ => AttemptResult.jsonResponse (JsonVal.obj [])).result =
      Except.error (GenError.apiConnection
        ("API call failed after 3 attempts: Unexpected API response: 'choices'"))
    ∧ (generate true true fun _ =>
        AttemptResult.jsonResponse (JsonVal.obj [])).ticks = 3
    ∧ (3 : Nat) ≠ 0 :=
  ⟨rfl, rfl, by decide⟩

theorem generateLoop_attempt_le (hasPbar : Bool) (env : Nat → AttemptResult) :
    ∀ (remaining attempt : Nat) (le : Option GenError) (ticks : Nat)
      (delays : List Nat),
      attempt ≤ (generateLoop hasPbar env remaining attempt le ticks delays).attemptsRun := by
  intro remaining
  induction remaining with
  | zero => intro attempt le ticks delays; exact Nat.le_refl _
  | succ r ih =>
    intro attempt le ticks delays
    simp only [generateLoop]
    cases h : attemptOutcome (env attempt) with
    | ok v => simp
    | error e =>
      simp only
      exact Nat.le_trans (Nat.le_succ _) (ih (attempt + 1) _ _ _)

theorem generateLoop_ticks_count (env : Nat → AttemptResult) :
    ∀ (remaining attempt : Nat) (le : Option GenError) (ticks : Nat)
      (delays : List Nat),
      (generateLoop true env remaining attempt le ticks delays).ticks =
        ticks + (List.range' attempt
          ((generateLoop true env remaining attempt le ticks delays).attemptsRun
            - attempt)).countP (fun k => isJsonResp (env k)) := by
  intro remaining
  induction remaining with
  | zero => intro attempt le ticks delays; simp [generateLoop]
  | succ r ih =>
    intro attempt le ticks delays
    rw [generateLoop]
    cases h : attemptOutcome (env attempt) with
    | ok v =>
      simp only [Nat.add_sub_cancel_left, List.range'_one, List.countP_cons,
        List.countP_nil, Bool.true_and]
      cases hj : isJsonResp (env attempt) <;> simp [hj]
    | error e =>
      simp only
      rw [ih]
      have hle := generateLoop_attempt_le true env r (attempt + 1) (some e)
        (if true && isJsonResp (env attempt) then ticks + 1 else ticks)
        (if attempt < MAX_RETRIES - 1 then delays ++ [RETRY_DELAY * (attempt + 1)]
          else delays)
      set A := (generateLoop true env r (attempt + 1) (some e)
        (if true && isJsonResp (env attempt) then ticks + 1 else ticks)
        (if attempt < MAX_RETRIES - 1 then delays ++ [RETRY_DELAY * (attempt + 1)]
          else delays)).attemptsRun with hA
      have hsub : A - attempt = (A - (attempt + 1)) + 1 := by omega
      rw [hsub, List.range'_succ, List.countP_cons]
      cases hj : isJsonResp (env attempt) <;> simp [hj] <;> omega

theorem generateLoop_pbar_independent (env : Nat → AttemptResult) :
    ∀ (remaining attempt : Nat) (le : Option GenError)
      (ticks ticks' : Nat) (delays : List Nat) (hb hb' : Bool),
      (generateLoop hb env remaining attempt le ticks delays).result =
        (generateLoop hb' env remaining attempt le ticks' delays).result
      ∧ (generateLoop hb env remaining attempt le ticks delays).delays =
        (generateLoop hb' env remaining attempt le ticks' delays).delays
      ∧ (generateLoop hb env remaining attempt le ticks delays).attemptsRun =
        (generateLoop hb' env remaining attempt le ticks' delays).attemptsRun := by
  intro remaining
  induction remaining with
  | zero => intro attempt le ticks ticks' delays hb hb'; exact ⟨rfl, rfl, rfl⟩
  | succ r ih =>
    intro attempt le ticks ticks' delays hb hb'
    rw [generateLoop, generateLoop]
    cases h : attemptOutcome (env attempt) with
    | ok v => exact ⟨rfl, rfl, rfl⟩
    | error e => exact ih (attempt + 1) (some e) _ _ _ hb hb'

theorem generateLoop_ticks_false (env : Nat → AttemptResult) :
    ∀ (remaining attempt : Nat) (le : Option GenError) (ticks : Nat)
      (delays : List Nat),
      (generateLoop false env remaining attempt le ticks delays).ticks = ticks := by
  intro remaining
  induction remaining with
  | zero => intro attempt le ticks delays; rfl
  | succ r ih =>
    intro attempt le ticks delays
    rw [generateLoop]
    cases h : attemptOutcome (env attempt) with
    | ok v => simp
    | error e => simpa using ih (attempt + 1) (some e) ticks _

/-- C2 amended: the progress callback fires exactly once per attempt whose
HTTP round produced parseable JSON — the tick precedes the extraction of the
completion field, so shape-failing attempts also tick; attempts failing at
transport level never tick, no tick happens without a progress bar, and the
callback has no effect on the call's result, backoff delays, or attempt
count. -/
theorem progress_callback_amended (sessionOpen : Bool)
    (env : Nat → AttemptResult) :
    ((generate sessionOpen true env).ticks =
      (List.range' 0 ((generate sessionOpen true env).attemptsRun)).countP
        (fun k => isJsonResp (env k)))
    ∧ (generate sessionOpen false env).ticks = 0
    ∧ (generate sessionOpen true env).result = (generate sessionOpen false env).result
    ∧ (generate sessionOpen true env).delays = (generate sessionOpen false env).delays
    ∧ (generate sessionOpen true env).attemptsRun =
        (generate sessionOpen false env).attemptsRun := by
  cases sessionOpen with
  | false => exact ⟨rfl, rfl, rfl, rfl, rfl⟩
  | true =>
    refine ⟨?_, ?_, ?_, ?_, ?_⟩
    · show (generateLoop true env MAX_RETRIES 0 none 0 []).ticks = _
      simpa using generateLoop_ticks_count env MAX_RETRIES 0 none 0 []
    · exact generateLoop_ticks_false env MAX_RETRIES 0 none 0 []
    · exact (generateLoop_pbar_independent env MAX_RETRIES 0 none 0 0 [] true false).1
    · exact (generateLoop_pbar_independent env MAX_RETRIES 0 none 0 0 [] true false).2.1
    · exact (generateLoop_pbar_independent env MAX_RETRIES 0 none 0 0 [] true false).2.2

/-! ## Claim C3: all-or-nothing batch semantics -/

theorem collectBatch_first_error (e : GenError) (nm : String) :
    ∀ (rs1 rs2 : List (String × Except GenError JsonVal))
      (out : List (String × JsonVal)),
      (∀ r ∈ rs1, ∃ c, r.2 = Except.ok c) →
      collectBatch (rs1 ++ (nm, Except.error e) :: rs2) out = Except.error e := by
  intro rs1
  induction rs1 with
  | nil => intro rs2 out _; rfl
  | cons r rest ih =>
    intro rs2 out hok
    obtain ⟨c, hc⟩ := hok r (List.mem_cons_self r rest)
    obtain ⟨n', r2⟩ := r
    simp only at hc
    subst hc
    simpa [collectBatch] using
      ih rs2 _ (fun x hx => hok x (List.mem_cons_of_mem _ hx))

theorem collectBatch_all_ok (v : String → JsonVal) :
    ∀ (tasks : List (String × String)) (out : List (String × JsonVal)),
      collectBatch (tasks.map fun t => (t.1, Except.ok (v t.1))) out =
        Except.ok (tasks.foldl (fun o t => dictInsert o t.1 (v t.1)) out) := by
  intro tasks
  induction tasks with
  | nil => intro out; rfl
  | cons t ts ih => intro out; simpa [collectBatch] using ih _

theorem dictInsert_not_mem {α : Type} (out : List (String × α)) (k : String)
    (v : α) (h : k ∉ out.map Prod.fst) : dictInsert out k v = out ++ [(k, v)] := by
  induction out with
  | nil => rfl
  | cons p ps ih =>
    simp only [List.map_cons, List.mem_cons] at h
    push_neg at h
    simp only [dictInsert]
    rw [if_neg (fun hk => h.1 hk.symm), ih h.2]
    rfl

theorem foldl_dictInsert_append (v : String → JsonVal) :
    ∀ (tasks : List (String × String)) (out : List (String × JsonVal)),
      (∀ t ∈ tasks, t.1 ∉ out.map Prod.fst) →
      (tasks.map Prod.fst).Nodup →
      tasks.foldl (fun o t => dictInsert o t.1 (v t.1)) out =
        out ++ tasks.map fun t => (t.1, v t.1) := by
  intro tasks
  induction tasks with
  | nil => intro out _ _; simp
  | cons t ts ih =>
    intro out hout hnd
    simp only [List.map_cons, List.nodup_cons] at hnd
    rw [List.foldl_cons,
      dictInsert_not_mem out t.1 (v t.1) (hout t (List.mem_cons_self t ts)),
      ih (out ++ [(t.1, v t.1)]) ?_ hnd.2]
    · simp
    · intro u hu
      simp only [List.map_append, List.mem_append, List.map_cons]
      push_neg
      refine ⟨hout u (List.mem_cons_of_mem _ hu), ?_⟩
      intro hmem
      simp only [List.map_nil, List.mem_singleton] at hmem
      exact hnd.1 (hmem ▸ List.mem_map_of_mem Prod.fst hu)

/-- C3: all-or-nothing batch semantics.  If the tasks split as
`pre ++ (nm, p) :: post` where every task of `pre` succeeds and task `nm`
fails with `e`, then `generate_batch` fails with exactly `e` and returns no
mapping; if every task succeeds (task `t` producing `v t.1`) and the task
names are distinct, the batch returns the complete name-to-content mapping,
one entry per task, in task order. -/
theorem batch_all_or_nothing_claim :
    (∀ (pre post : List (String × String)) (nm p : String) (e : GenError)
      (env : String → Nat → AttemptResult) (hasPbar : Bool)
      (v : String → JsonVal),
      (∀ t ∈ pre, (generate true hasPbar (env t.1)).result = Except.ok (v t.1)) →
      (generate true hasPbar (env nm)).result = Except.error e →
      generate_batch true hasPbar (pre ++ (nm, p) :: post) env = Except.error e)
    ∧ (∀ (tasks : List (String × String)) (env : String → Nat → AttemptResult)
      (hasPbar : Bool) (v : String → JsonVal),
      (∀ t ∈ tasks, (generate true hasPbar (env t.1)).result = Except.ok (v t.1)) →
      (tasks.map Prod.fst).Nodup →
      generate_batch true hasPbar tasks env =
        Except.ok (tasks.map fun t => (t.1, v t.1))) := by
  constructor
  · intro pre post nm p e env hasPbar v hok herr
    unfold generate_batch
    rw [List.map_append, List.map_cons]
    simp only [herr]
    exact collectBatch_first_error e nm _ _ []
      (by
        intro r hr
        obtain ⟨t, ht, rfl⟩ := List.mem_map.mp hr
        exact ⟨v t.1, hok t ht⟩)
  · intro tasks env hasPbar v hok hnd
    unfold generate_batch
    rw [List.map_congr_left
      (fun t ht => by simp only [hok t ht] :
        ∀ t ∈ tasks, (fun t => (t.1, (generate true hasPbar (env t.1)).result)) t =
          (fun t => (t.1, Except.ok (v t.1))) t)]
    rw [collectBatch_all_ok v tasks []]
    rw [foldl_dictInsert_append v tasks [] (by simp) hnd]
    simp

/-- A well-shaped completion response. -/
def okJson : JsonVal :=
  JsonVal.obj [("choices", JsonVal.arr
    [JsonVal.obj [("message", JsonVal.obj [("content", JsonVal.str "hi")])]])]

/-- Per-task network oracle for the batch witness: the task named `"t2"`
always hits a transport error and exhausts its retries; every other task
succeeds on its first attempt. -/
def batchEnvC : String → Nat → AttemptResult := fun name _ =>
  if name = "t2" then AttemptResult.connError "boom"
  else AttemptResult.jsonResponse okJson

/-- C3 witness: three tasks where task 2 exhausts its retries — the batch
fails with task 2's composite error even though tasks 1 and 3 succeeded. -/
theorem batch_all_or_nothing_claim_witness :
    ((generate true true (batchEnvC "t1")).result = Except.ok (JsonVal.str "hi")
      ∧ (generate true true (batchEnvC "t3")).result = Except.ok (JsonVal.str "hi")
      ∧ (generate true true (batchEnvC "t2")).result = Except.error
          (GenError.apiConnection
            "API call failed after 3 attempts: Connection error: boom")
      ∧ generate_batch true true [("t1", "p1"), ("t2", "p2"), ("t3", "p3")]
          batchEnvC =
        Except.error (GenError.apiConnection
          "API call failed after 3 attempts: Connection error: boom"))
    ∧ generate_batch true true [("t1", "p1"), ("t3", "p3")] batchEnvC =
        Except.ok [("t1", JsonVal.str "hi"), ("t3", JsonVal.str "hi")] := by
  refine ⟨⟨rfl, rfl, rfl, ?_⟩, ?_⟩
  · exact batch_all_or_nothing_claim.1 [("t1", "p1")] [("t3", "p3")] "t2" "p2"
      _ batchEnvC true (fun _ => JsonVal.str "hi")
      (by
        intro t ht
        rw [List.mem_singleton] at ht
        subst ht
        rfl)
      rfl
  · exact batch_all_or_nothing_claim.2 [("t1", "p1"), ("t3", "p3")] batchEnvC
      true (fun _ => JsonVal.str "hi")
      (by
        intro t ht
        rcases List.mem_cons.mp ht with h | h
        · subst h; rfl
        · rw [List.mem_singleton] at h; subst h; rfl)
      (by decide)

/-! ## Claim C8: keyword highlighting -/

theorem ciPrefix_sound :
    ∀ (kw text m r : List Char), ciPrefix kw text = some (m, r) →
      text = m ++ r ∧ m.length = kw.length := by
  intro kw
  induction kw with
  | nil =>
    intro text m r h
    simp only [ciPrefix, Option.some.injEq, Prod.mk.injEq] at h
    obtain ⟨rfl, rfl⟩ := h
    exact ⟨rfl, rfl⟩
  | cons k ks ih =>
    intro text m r h
    cases text with
    | nil =>
      rw [show ciPrefix (k :: ks) [] = none from rfl] at h
      exact absurd h (by simp)
    | cons c cs =>
      simp only [ciPrefix] at h
      by_cases hc : c.toLower = k.toLower
      · rw [if_pos hc] at h
        cases hp : ciPrefix ks cs with
        | none => rw [hp] at h; simp at h
        | some mr =>
          rw [hp] at h
          simp only [Option.map_some', Option.some.injEq, Prod.mk.injEq] at h
          obtain ⟨rfl, rfl⟩ := h
          obtain ⟨he, hl⟩ := ih cs mr.1 mr.2 (by rw [hp])
          constructor
          · simp [he]
          · simp [hl]
      · rw [if_neg hc] at h; simp at h

theorem subCIFuel_id (kw : List Char) :
    ∀ (fuel : Nat) (text : List Char), text.length ≤ fuel →
      subCIFuel kw [] [] fuel text = text := by
  intro fuel
  induction fuel with
  | zero =>
    intro text hlen
    rw [List.length_eq_zero.mp (Nat.le_zero.mp hlen)]
    simp only [subCIFuel]
    split <;> rfl
  | succ f ih =>
    intro text hlen
    cases text with
    | nil =>
      simp only [subCIFuel]
      split <;> rfl
    | cons c rest =>
      simp only [subCIFuel]
      by_cases hkw : kw = []
      · rw [if_pos hkw]
        simp only [List.nil_append]
        rw [ih rest (by simpa using Nat.le_of_succ_le_succ hlen)]
      · rw [if_neg hkw]
        cases hp : ciPrefix kw (c :: rest) with
        | none =>
          rw [ih rest (by simpa using Nat.le_of_succ_le_succ hlen)]
        | some mr =>
          obtain ⟨m, r⟩ := mr
          obtain ⟨he, hl⟩ := ciPrefix_sound kw (c :: rest) m r (by rw [hp])
          have hr : r.length ≤ f := by
            have h1 : (c :: rest).length = m.length + r.length := by
              rw [he, List.length_append]
            have h2 : 1 ≤ kw.length := by
              cases kw with
              | nil => exact absurd rfl hkw
              | cons _ _ => simp
            simp only [List.length_cons] at h1 hlen
            omega
          show [] ++ m ++ [] ++ subCIFuel kw [] [] f r = c :: rest
          rw [ih r hr]
          simp [he]

theorem subCIFuel_no_occurrence (kw pre post : List Char) (hkw : kw ≠ []) :
    ∀ (fuel : Nat) (text : List Char), text.length ≤ fuel →
      ciOccurs kw text = false →
      subCIFuel kw pre post fuel text = text := by
  intro fuel
  induction fuel with
  | zero =>
    intro text hlen _
    rw [List.length_eq_zero.mp (Nat.le_zero.mp hlen)]
    simp only [subCIFuel]
    rw [if_neg hkw]
  | succ f ih =>
    intro text hlen hocc
    cases text with
    | nil =>
      simp only [subCIFuel]
      rw [if_neg hkw]
    | cons c rest =>
      simp only [ciOccurs, Bool.or_eq_false_iff] at hocc
      simp only [subCIFuel]
      rw [if_neg hkw]
      cases hp : ciPrefix kw (c :: rest) with
      | none =>
        rw [ih rest (by simpa using Nat.le_of_succ_le_succ hlen) hocc.2]
      | some mr =>
        exact absurd (by rw [hp]; rfl) (by simp [hocc.1] :
          ¬(ciPrefix kw (c :: rest)).isSome = true)

/-- C8: keywords are applied sequentially in list order (each keyword's
substitution feeds the next); the substitution reproduces the matched text
verbatim — with empty markers the text is returned unchanged, so the original
casing of every match is preserved — and a text without any case-insensitive
occurrence of a keyword passes through that keyword's round unchanged; on the
spec's example, keyword `"SEO"` wraps the lowercase occurrence `"seo"` with
its casing intact, in both markup flavours. -/
theorem keyword_highlighting_claim :
    (∀ (t k : String) (ks : List String),
      highlight_keywords_md t (k :: ks) =
        highlight_keywords_md (reSubCI k "**" "**" t) ks)
    ∧ (∀ (t k : String) (ks : List String),
      highlight_keywords t (k :: ks) =
        highlight_keywords (reSubCI k "<b>" "</b>" t) ks)
    ∧ (∀ (kw text : String), reSubCI kw "" "" text = text)
    ∧ (∀ (kw pre post text : String), kw.data ≠ [] →
      ciOccurs kw.data text.data = false → reSubCI kw pre post text = text)
    ∧ highlight_keywords_md "Three seo tips for SEO, even camelSeo." ["SEO"] =
        "Three **seo** tips for **SEO**, even camel**Seo**."
    ∧ highlight_keywords "seo tips" ["SEO"] = "<b>seo</b> tips" := by
  refine ⟨?_, ?_, ?_, ?_, by decide, by decide⟩
  · intro t k ks
    cases ks with
    | nil => rfl
    | cons k' ks' => rfl
  · intro t k ks
    cases ks with
    | nil => rfl
    | cons k' ks' => rfl
  · intro kw text
    unfold reSubCI
    rw [subCIFuel_id kw.data text.data.length text.data (Nat.le_refl _)]
  · intro kw pre post text hkw hocc
    unfold reSubCI
    rw [subCIFuel_no_occurrence kw.data pre.data post.data hkw
      text.data.length text.data (Nat.le_refl _) hocc]

/-- C8 witness: the no-occurrence hypothesis discharged on `"SEO"` versus a
text that never contains it. -/
theorem keyword_highlighting_claim_witness :
    ("SEO".data ≠ [] ∧ ciOccurs "SEO".data "plain text".data = false
      ∧ reSubCI "SEO" "**" "**" "plain text" = "plain text") :=
  ⟨by decide, by decide,
   keyword_highlighting_claim.2.2.2.1 "SEO" "**" "**" "plain text"
     (by decide) (by decide)⟩

/-! ## Claim C9: section prompt construction -/

/-- C9: the perspective is selected purely by section index from the fixed
five-entry table, any index `≥ 5` falls back to the generic in-depth-analysis
perspective, and the task list built by `generate_all_content` places at
position `base + i` (with `base` = 2 when a table task is present, else 1)
the task `section_<i>` whose prompt is built with exactly
`headings.take i` — the headings of the strictly preceding sections — as the
already-covered exclusion list; no generated text exists at this point, the
tasks are a function of the configuration alone. -/
theorem section_prompt_claim :
    (∀ h : String,
      _get_section_perspective h 0 = "Basic information and first steps for beginners"
      ∧ _get_section_perspective h 1 = "Practical comparison and evaluation criteria"
      ∧ _get_section_perspective h 2 = "Advanced tips and maximum benefit strategies"
      ∧ _get_section_perspective h 3 = "Common mistakes and how to avoid them"
      ∧ _get_section_perspective h 4 = "Future trends and things to watch out for")
    ∧ (∀ (h : String) (i : Nat), 5 ≤ i →
      _get_section_perspective h i = "In-depth analysis and concrete examples")
    ∧ (∀ (config : ContentConfig) (i : Nat) (hi : i < config.sections.length),
      (generateAllTasks config)[
          (if config.table.enabled ∧ 0 < config.table.rows then 2 else 1) + i]? =
        some ("section_" ++ toString i,
          build_section_prompt config.title (config.sections.get ⟨i, hi⟩).heading
            (config.sections.get ⟨i, hi⟩).words i config.sections.length
            (config.headings.take i) config.seo config.placeholders
            config.language)) := by
  refine ⟨fun h => ⟨rfl, rfl, rfl, rfl, rfl⟩, ?_, ?_⟩
  · intro h i hi
    obtain ⟨n, rfl⟩ : ∃ n, i = n + 5 := ⟨i - 5, by omega⟩
    rfl
  · intro config i hi
    simp only [generateAllTasks]
    have hsec : ∀ (pre : List (String × String)), pre.length =
        (if config.table.enabled ∧ 0 < config.table.rows then 2 else 1) →
        ((pre ++ config.sections.enum.map fun is' =>
            ("section_" ++ toString is'.1,
              build_section_prompt config.title is'.2.heading is'.2.words is'.1
                config.sections.length (config.headings.take is'.1) config.seo
                config.placeholders config.language)) ++
          [("conclusion",
            build_conclusion_prompt config.title config.headings
              config.conclusion_words config.seo config.language)])[
          (if config.table.enabled ∧ 0 < config.table.rows then 2 else 1) + i]? =
        some ("section_" ++ toString i,
          build_section_prompt config.title (config.sections.get ⟨i, hi⟩).heading
            (config.sections.get ⟨i, hi⟩).words i config.sections.length
            (config.headings.take i) config.seo config.placeholders
            config.language) := by
      intro pre hpre
      rw [List.getElem?_append]
      rw [if_pos (by
        simp only [List.length_append, List.length_map, List.enum_length, hpre]
        omega)]
      rw [List.getElem?_append]
      rw [if_neg (by rw [hpre]; omega)]
      rw [hpre, Nat.add_sub_cancel_left, List.getElem?_map, List.getElem?_enum,
        List.getElem?_eq_getElem hi]
      rfl
    by_cases he : config.table.enabled
    · by_cases hr : 0 < config.table.rows
      · have hcond : (0 < if config.table.enabled then config.table.rows else 0) := by
          rw [if_pos he]; exact hr
        rw [if_pos hcond]
        exact hsec _ (by simp [he, hr])
      · have hcond : ¬(0 < if config.table.enabled then config.table.rows else 0) := by
          rw [if_pos he]; exact hr
        rw [if_neg hcond]
        exact hsec _ (by simp [he, hr])
    · have hcond : ¬(0 < if config.table.enabled then config.table.rows else 0) := by
        rw [if_neg he]; omega
      rw [if_neg hcond]
      exact hsec _ (by simp [he])

/-- Concrete configuration for the C9 witness: two sections and an enabled
two-row table, so the section tasks sit behind the intro and table tasks. -/
def cfgC : ContentConfig :=
  { title := "T", intro_words := 100, conclusion_words := 80,
    sections := [{ heading := "Alpha", words := 50 },
                 { heading := "Beta", words := 60 }],
    table := { enabled := true, rows := 2,
               columns := [{ name := "item", header := "Item" }] },
    model := "m", placeholders := {} }

/-- C9 witness: the fallback perspective at index 7 and the placement of
`section_1` (with `headings.take 1 = ["Alpha"]`) in the concrete task list. -/
theorem section_prompt_claim_witness :
    ((5 : Nat) ≤ 7
      ∧ _get_section_perspective "x" 7 = "In-depth analysis and concrete examples")
    ∧ ((1 : Nat) < cfgC.sections.length
      ∧ (generateAllTasks cfgC)[
          (if cfgC.table.enabled ∧ 0 < cfgC.table.rows then 2 else 1) + 1]? =
        some ("section_" ++ toString 1,
          build_section_prompt cfgC.title (cfgC.sections.get ⟨1, by decide⟩).heading
            (cfgC.sections.get ⟨1, by decide⟩).words 1 cfgC.sections.length
            (cfgC.headings.take 1) cfgC.seo cfgC.placeholders cfgC.language)) :=
  ⟨⟨by decide, section_prompt_claim.2.1 "x" 7 (by decide)⟩,
   ⟨by decide, section_prompt_claim.2.2 cfgC 1 (by decide)⟩⟩

/-! ## Claim C5: text segmentation -/

/-- Render one specification-side block in a given format. -/
def blockOutOf (paraOut listOut : List String → String) : Block → String
  | .para ls => paraOut ls
  | .bullets items => listOut items

/-- The implementation state and the specification state agree: same rendered
paragraphs, same pending buffers. -/
def segRel (paraOut listOut : List String → String) (st : SegState)
    (bst : BlockState) : Prop :=
  st.paragraphs = bst.blocks.map (blockOutOf paraOut listOut)
  ∧ st.current_list = bst.curList
  ∧ st.current_para = bst.curPara

theorem segRel_flushPara (paraOut listOut : List String → String)
    (st : SegState) (bst : BlockState) (h : segRel paraOut listOut st bst) :
    segRel paraOut listOut (flushPara paraOut st) (bFlushPara bst) := by
  obtain ⟨h1, h2, h3⟩ := h
  by_cases hc : bst.curPara = []
  · simp [flushPara, bFlushPara, h1, h2, h3, hc, segRel]
  · simp [flushPara, bFlushPara, h1, h2, h3, hc, segRel, blockOutOf]

theorem segRel_flushList (paraOut listOut : List String → String)
    (st : SegState) (bst : BlockState) (h : segRel paraOut listOut st bst) :
    segRel paraOut listOut (flushList listOut st) (bFlushList bst) := by
  obtain ⟨h1, h2, h3⟩ := h
  by_cases hc : bst.curList = []
  · simp [flushList, bFlushList, h1, h2, h3, hc, segRel]
  · simp [flushList, bFlushList, h1, h2, h3, hc, segRel, blockOutOf]

theorem segRel_segLine (paraOut listOut : List String → String)
    (st : SegState) (bst : BlockState) (line0 : String)
    (h : segRel paraOut listOut st bst) :
    segRel paraOut listOut (segLine paraOut listOut st line0)
      (bSegLine bst line0) := by
  unfold segLine bSegLine
  by_cases hb : pyStrip line0 = ""
  · simp only [hb, if_true]
    exact segRel_flushList _ _ _ _ (segRel_flushPara _ _ _ _ h)
  · by_cases hbl : isBulletLine (pyStrip line0).data = true
    · simp only [hb, hbl, if_false, if_true]
      obtain ⟨h1, h2, h3⟩ := segRel_flushPara paraOut listOut st bst h
      exact ⟨h1, by simp [h2], h3⟩
    · simp only [hb, hbl, if_false]
      obtain ⟨h1, h2, h3⟩ := segRel_flushList paraOut listOut st bst h
      exact ⟨h1, h2, by simp [h3]⟩

theorem segRel_foldl (paraOut listOut : List String → String) :
    ∀ (lines : List String) (st : SegState) (bst : BlockState),
      segRel paraOut listOut st bst →
      segRel paraOut listOut (lines.foldl (segLine paraOut listOut) st)
        (lines.foldl bSegLine bst) := by
  intro lines
  induction lines with
  | nil => intro st bst h; exact h
  | cons l ls ih =>
    intro st bst h
    exact ih _ _ (segRel_segLine paraOut listOut st bst l h)

/-- The implementation's flush machine computes exactly the rendering of the
specification-side segmentation. -/
theorem segRun_eq_segmentSpec (paraOut listOut : List String → String)
    (lines : List String) :
    segRun paraOut listOut lines =
      (segmentSpec lines).map (blockOutOf paraOut listOut) := by
  unfold segRun segmentSpec
  exact (segRel_flushList _ _ _ _ (segRel_flushPara _ _ _ _
    (segRel_foldl paraOut listOut lines {} {} ⟨rfl, rfl, rfl⟩))).1

/-- C5: both formats segment text through the same blank-line/bullet/plain
state machine — `text_to_md` and `text_to_html` each equal the rendering of
the shared specification-side segmentation (paragraph flushed before list on
a blank line and at end of input, bullets appended to the list buffer after
flushing the paragraph, plain lines appended to the paragraph buffer after
flushing the list) — and on the spec's example the result is one paragraph
block `"a b"` followed by one list block `x, y`, in that order. -/
theorem segmentation_claim :
    (∀ (text : String) (keywords : List String),
      text_to_md text keywords =
        if pyStrip text = "" then ""
        else
          let md := joinSep "\n\n" ((segmentSpec (pySplit (pyStrip text) '\n')).map
            (blockOutOf mdParaOut mdListOut))
          if keywords = [] then md else highlight_keywords_md md keywords)
    ∧ (∀ (text : String) (keywords : List String),
      text_to_html text keywords =
        if pyStrip text = "" then ""
        else
          let html := joinSep "\n" ((segmentSpec (pySplit (pyStrip text) '\n')).map
            (blockOutOf htmlParaOut htmlListOut))
          if keywords = [] then html else highlight_keywords html keywords)
    ∧ pySplit (pyStrip "a\nb\n\n- x\n- y") '\n' = ["a", "b", "", "- x", "- y"]
    ∧ segmentSpec ["a", "b", "", "- x", "- y"] =
        [Block.para ["a", "b"], Block.bullets ["x", "y"]]
    ∧ text_to_md "a\nb\n\n- x\n- y" [] = "a b\n\n- x\n- y"
    ∧ text_to_html "a\nb\n\n- x\n- y" [] =
        "<p>a b</p>\n<ul>\n  <li>x</li>\n  <li>y</li>\n</ul>" := by
  refine ⟨?_, ?_, by decide, by decide, by decide, by decide⟩
  · intro text keywords
    unfold text_to_md
    simp only [segRun_eq_segmentSpec]
  · intro text keywords
    unfold text_to_html
    simp only [segRun_eq_segmentSpec]

/-! ## Claim C1: Markdown table round-trip -/

/-- C1 counterexample: a one-row, one-column (non-stars) table.  Re-parsing
the built Markdown table yields three rows (header and separator lines are
kept as data) and the `"item"` value of every parsed row is `""` — the
original value `"a"` sits behind the leading `|` of the line and is shifted
out of its column, so the round-trip does not restore it. -/
theorem markdown_roundtrip_counterexample :
    ((parse_table_data
        (build_table_md [⟨[("item", "a")]⟩] [{ name := "item", header := "Item" }])
        [{ name := "item", header := "Item" }]).map
      fun r => TableRow.get r "item" "") = ["", "", ""]
    ∧ (([⟨[("item", "a")]⟩] : List TableRow).map
        fun r => TableRow.get r "item" "") = ["a"]
    ∧ (["", "", ""] : List String) ≠ ["a"] :=
  ⟨by decide, by decide, by decide⟩

theorem splitChar_not_mem (c : Char) :
    ∀ (l : List Char), c ∉ l → splitChar c l = [l] := by
  intro l
  induction l with
  | nil => intro _; rfl
  | cons x xs ih =>
    intro h
    rw [List.mem_cons] at h
    push_neg at h
    simp only [splitChar]
    rw [if_neg (fun hx => h.1 hx.symm), ih h.2]

theorem splitChar_append_sep (c : Char) :
    ∀ (a t : List Char), c ∉ a → splitChar c (a ++ c :: t) = a :: splitChar c t := by
  intro a
  induction a with
  | nil =>
    intro t _
    rw [List.nil_append, splitChar, if_pos rfl]
  | cons x xs ih =>
    intro t h
    rw [List.mem_cons] at h
    push_neg at h
    rw [List.cons_append, splitChar, if_neg (fun hx => h.1 hx.symm), ih t h.2]

/-- Python join at the character-list level. -/
def charJoin (sep : List Char) : List (List Char) → List Char
  | [] => []
  | [a] => a
  | a :: rest => a ++ sep ++ charJoin sep rest

theorem joinSep_data (sep : String) :
    ∀ (l : List String), (joinSep sep l).data = charJoin sep.data (l.map String.data) := by
  intro l
  induction l with
  | nil => rfl
  | cons a rest ih =>
    cases rest with
    | nil => rfl
    | cons b rest' =>
      show (a ++ sep ++ joinSep sep (b :: rest')).data = _
      rw [String.data_append, String.data_append, ih]
      rfl

theorem splitChar_charJoin (c : Char) :
    ∀ (ls : List (List Char)), ls ≠ [] → (∀ l ∈ ls, c ∉ l) →
      splitChar c (charJoin [c] ls) = ls := by
  intro ls
  induction ls with
  | nil => intro h _; exact absurd rfl h
  | cons a rest ih =>
    intro _ hmem
    cases rest with
    | nil => exact splitChar_not_mem c a (hmem a (List.mem_cons_self a []))
    | cons b rest' =>
      show splitChar c (a ++ [c] ++ charJoin [c] (b :: rest')) = _
      rw [List.append_assoc, List.singleton_append,
        splitChar_append_sep c a _ (hmem a (List.mem_cons_self _ _)),
        ih (by simp) (fun l hl => hmem l (List.mem_cons_of_mem a hl))]

theorem charJoin_not_mem (c : Char) (sep : List Char) (hsep : c ∉ sep) :
    ∀ (ls : List (List Char)), (∀ l ∈ ls, c ∉ l) → c ∉ charJoin sep ls := by
  intro ls
  induction ls with
  | nil => intro _; simp [charJoin]
  | cons a rest ih =>
    intro hmem
    cases rest with
    | nil => exact hmem a (List.mem_cons_self a [])
    | cons b rest' =>
      show c ∉ a ++ sep ++ charJoin sep (b :: rest')
      simp only [List.mem_append]
      push_neg
      exact ⟨⟨hmem a (List.mem_cons_self _ _), hsep⟩,
        ih (fun l hl => hmem l (List.mem_cons_of_mem a hl))⟩

theorem charJoin_getLast?_pipe (sep : List Char) :
    ∀ (ls : List (List Char)), ls ≠ [] → (∀ l ∈ ls, l.getLast? = some '|') →
      (charJoin sep ls).getLast? = some '|' := by
  intro ls
  induction ls with
  | nil => intro h _; exact absurd rfl h
  | cons a rest ih =>
    intro _ hmem
    cases rest with
    | nil => exact hmem a (List.mem_cons_self a [])
    | cons b rest' =>
      show ((a ++ sep) ++ charJoin sep (b :: rest')).getLast? = _
      rw [List.getLast?_append,
        ih (by simp) (fun l hl => hmem l (List.mem_cons_of_mem a hl))]
      rfl

theorem stripChars_eq_self (l : List Char)
    (h1 : ∀ x, l.head? = some x → isPySpace x = false)
    (h2 : ∀ x, l.getLast? = some x → isPySpace x = false) :
    stripChars l = l := by
  cases l with
  | nil => rfl
  | cons a as =>
    unfold stripChars
    rw [List.dropWhile_cons, if_neg (by rw [h1 a rfl]; simp)]
    cases hrev : (a :: as).reverse with
    | nil => exact absurd hrev (by simp)
    | cons b bs =>
      have hb : (a :: as).getLast? = some b := by
        rw [← List.head?_reverse, hrev]
        rfl
      rw [List.dropWhile_cons, if_neg (by rw [h2 b hb]; simp), ← hrev,
        List.reverse_reverse]

theorem stripChars_space_left (l : List Char) :
    stripChars (' ' :: l) = stripChars l := by
  unfold stripChars
  rw [List.dropWhile_cons, if_pos (by decide)]

theorem stripChars_space_right (l : List Char) :
    stripChars (l ++ [' ']) = stripChars l := by
  unfold stripChars
  rw [List.dropWhile_append]
  by_cases h : (List.dropWhile isPySpace l).isEmpty = true
  · rw [if_pos h]
    rw [List.isEmpty_iff] at h
    rw [h]
    rfl
  · rw [if_neg h, List.reverse_append]
    show (List.dropWhile isPySpace
      (' ' :: (List.dropWhile isPySpace l).reverse)).reverse = _
    rw [List.dropWhile_cons, if_pos (by decide)]

theorem charJoin_head?_pipe (sep : List Char) :
    ∀ (ls : List (List Char)), ls ≠ [] → (∀ l ∈ ls, l.head? = some '|') →
      (charJoin sep ls).head? = some '|' := by
  intro ls
  induction ls with
  | nil => intro h _; exact absurd rfl h
  | cons a rest ih =>
    intro _ hmem
    cases rest with
    | nil => exact hmem a (List.mem_cons_self a [])
    | cons b rest' =>
      show ((a ++ sep) ++ charJoin sep (b :: rest')).head? = _
      rw [List.head?_append, List.head?_append, hmem a (List.mem_cons_self _ _)]
      rfl

theorem filterMap_eq_map_of_some {α β : Type} (f : α → Option β) (g : α → β) :
    ∀ (l : List α), (∀ x ∈ l, f x = some (g x)) → l.filterMap f = l.map g := by
  intro l
  induction l with
  | nil => intro _; rfl
  | cons a rest ih =>
    intro h
    rw [List.filterMap_cons, h a (List.mem_cons_self a rest),
      ih (fun x hx => h x (List.mem_cons_of_mem a hx))]
    rfl

theorem map_mk_data : ∀ (ls : List String), (ls.map String.data).map String.mk = ls := by
  intro ls
  induction ls with
  | nil => rfl
  | cons a rest ih =>
    rw [List.map_cons, List.map_cons, ih]

theorem splitChar_pipe_fields :
    ∀ (vlist : List (List Char)), vlist ≠ [] → (∀ v ∈ vlist, '|' ∉ v) →
      splitChar '|' (' ' :: (charJoin [' ', '|', ' '] vlist ++ [' ', '|'])) =
        (vlist.map fun v => ' ' :: (v ++ [' '])) ++ [[]] := by
  intro vlist
  induction vlist with
  | nil => intro h _; exact absurd rfl h
  | cons v rest ih =>
    intro _ hmem
    have hv : '|' ∉ v := hmem v (List.mem_cons_self v rest)
    cases rest with
    | nil =>
      rw [show (' ' :: (charJoin [' ', '|', ' '] [v] ++ [' ', '|']) : List Char) =
        (' ' :: (v ++ [' '])) ++ '|' :: [] from by simp [charJoin]]
      rw [splitChar_append_sep '|' _ [] (by
        simp only [List.mem_cons, List.mem_append, List.mem_singleton]
        push_neg
        exact ⟨by decide, hv, by decide⟩)]
      rfl
    | cons b rest' =>
      rw [show (' ' :: (charJoin [' ', '|', ' '] (v :: b :: rest') ++ [' ', '|']) :
          List Char) =
        (' ' :: (v ++ [' '])) ++ '|' ::
          (' ' :: (charJoin [' ', '|', ' '] (b :: rest') ++ [' ', '|'])) from by
        show (' ' :: ((v ++ [' ', '|', ' '] ++ charJoin [' ', '|', ' '] (b :: rest'))
          ++ [' ', '|']) : List Char) = _
        simp]
      rw [splitChar_append_sep '|' _ _ (by
        simp only [List.mem_cons, List.mem_append, List.mem_singleton]
        push_neg
        exact ⟨by decide, hv, by decide⟩)]
      rw [ih (by simp) (fun l hl => hmem l (List.mem_cons_of_mem v hl))]
      rfl

theorem splitChar_table_line (vlist : List (List Char)) (hne : vlist ≠ [])
    (hsafe : ∀ v ∈ vlist, '|' ∉ v) :
    splitChar '|' ((['|', ' '] ++ charJoin [' ', '|', ' '] vlist) ++ [' ', '|']) =
      [] :: ((vlist.map fun v => ' ' :: (v ++ [' '])) ++ [[]]) := by
  rw [show ((['|', ' '] ++ charJoin [' ', '|', ' '] vlist) ++ [' ', '|'] :
      List Char) =
    '|' :: (' ' :: (charJoin [' ', '|', ' '] vlist ++ [' ', '|'])) from by simp]
  rw [splitChar, if_pos rfl, splitChar_pipe_fields vlist hne hsafe]

/-- The character data of one built table line. -/
theorem table_line_data (vals : List String) :
    ("| " ++ joinSep " | " vals ++ " |").data =
      (['|', ' '] ++ charJoin [' ', '|', ' '] (vals.map String.data)) ++ [' ', '|'] := by
  rw [String.data_append, String.data_append, joinSep_data]

theorem table_line_head? (vals : List String) :
    ("| " ++ joinSep " | " vals ++ " |").data.head? = some '|' := by
  rw [table_line_data]
  rfl

theorem table_line_getLast? (vals : List String) :
    ("| " ++ joinSep " | " vals ++ " |").data.getLast? = some '|' := by
  rw [table_line_data, List.getLast?_append]
  rfl

theorem table_line_strip (vals : List String) :
    pyStrip ("| " ++ joinSep " | " vals ++ " |") = "| " ++ joinSep " | " vals ++ " |" := by
  unfold pyStrip
  rw [stripChars_eq_self _
    (fun x hx => by
      rw [table_line_head?] at hx
      cases hx
      rfl)
    (fun x hx => by
      rw [table_line_getLast?] at hx
      cases hx
      rfl)]

theorem table_line_not_newline (vals : List String)
    (hsafe : ∀ v ∈ vals, '\n' ∉ v.data) :
    '\n' ∉ ("| " ++ joinSep " | " vals ++ " |").data := by
  rw [table_line_data]
  simp only [List.mem_append, List.mem_cons, List.mem_singleton]
  push_neg
  refine ⟨⟨by decide, ?_⟩, by decide⟩
  exact charJoin_not_mem '\n' [' ', '|', ' '] (by decide) (vals.map String.data)
    (by
      intro l hl
      obtain ⟨v, hv, rfl⟩ := List.mem_map.mp hl
      exact hsafe v hv)

theorem pyStrip_field (v : String) :
    pyStrip (String.mk (' ' :: (v.data ++ [' ']))) = pyStrip v := by
  unfold pyStrip
  rw [data_mk, show (' ' :: (v.data ++ [' ']) : List Char) =
      (' ' :: v.data) ++ [' '] from by simp,
    stripChars_space_right, stripChars_space_left]

/-- Parsing one built table line: the leading empty field takes column 0 and
every rendered value lands, stripped, one column to the right. -/
theorem parseLineFn_table_line (columns : List TableColumn) (vals : List String)
    (hne : vals ≠ []) (hn : vals.length = columns.length)
    (hsafe : ∀ v ∈ vals, '|' ∉ v.data) :
    parseLineFn columns ("| " ++ joinSep " | " vals ++ " |") =
      some ⟨mkRowValues columns (("" :: vals.map pyStrip).take columns.length)⟩ := by
  have hdata := table_line_data vals
  have hsplit : pySplit ("| " ++ joinSep " | " vals ++ " |") '|' =
      "" :: ((vals.map fun v => String.mk (' ' :: (v.data ++ [' ']))) ++ [""]) := by
    unfold pySplit
    rw [hdata, splitChar_table_line (vals.map String.data)
      (by
        intro h
        rw [List.map_eq_nil_iff] at h
        exact hne h)
      (by
        intro l hl
        obtain ⟨v, hv, rfl⟩ := List.mem_map.mp hl
        exact hsafe v hv)]
    rw [List.map_cons, List.map_append, List.map_map, List.map_map]
    rfl
  have hparts : (pySplit ("| " ++ joinSep " | " vals ++ " |") '|').map pyStrip =
      "" :: ((vals.map pyStrip) ++ [""]) := by
    rw [hsplit, List.map_cons, List.map_append, List.map_map]
    congr 1
    · congr 1
      · apply List.map_congr_left
        intro v _
        exact pyStrip_field v
  have hnonempty : ("| " ++ joinSep " | " vals ++ " |") ≠ "" := by
    intro h
    have := congrArg String.data h
    rw [hdata] at this
    simp at this
  have hcontains : ("| " ++ joinSep " | " vals ++ " |").data.contains '|' = true := by
    rw [hdata]
    simp
  unfold parseLineFn
  rw [table_line_strip]
  rw [if_neg (by
    simp only [Bool.or_eq_true, decide_eq_true_eq, Bool.not_eq_true']
    push_neg
    exact ⟨hnonempty, by simp [hcontains]⟩)]
  rw [hparts]
  rw [if_pos (by
    simp only [List.length_cons, List.length_append, List.length_map, hn]
    omega)]
  rw [show ("" :: (List.map pyStrip vals ++ [""]) : List String) =
    ("" :: List.map pyStrip vals) ++ [""] from by simp]
  rw [List.take_append_of_le_length (by
    simp only [List.length_cons, List.length_map, hn]
    omega)]

/-- C1 amended: building a Markdown table and re-parsing it under the same
schema does NOT restore the original rows.  Provided every header and every
rendered cell is free of pipes and newlines (otherwise the line structure
itself changes), the re-parse yields `rows.length + 2` rows: the header and
separator lines come back as data rows, and every row comes back shifted one
column to the right — column 0 receives the empty field before the leading
`|`, the value rendered for column `j` lands (whitespace-stripped) on column
`j+1`, and the last column's value is dropped. -/
theorem markdown_roundtrip_amended (rows : List TableRow)
    (columns : List TableColumn) (hrows : rows ≠ []) (hcols : columns ≠ [])
    (hheader : ∀ col ∈ columns, '|' ∉ col.header.data ∧ '\n' ∉ col.header.data)
    (hcells : ∀ row ∈ rows, ∀ col ∈ columns,
      '|' ∉ (renderCell row col).data ∧ '\n' ∉ (renderCell row col).data) :
    parse_table_data (build_table_md rows columns) columns =
      ⟨mkRowValues columns
        (("" :: columns.map fun col => pyStrip col.header).take columns.length)⟩ ::
      ⟨mkRowValues columns
        (("" :: columns.map fun _ => ("---" : String)).take columns.length)⟩ ::
      rows.map (fun row => ⟨mkRowValues columns
        (("" :: columns.map fun col => pyStrip (renderCell row col)).take
          columns.length)⟩) := by
  have hcolsn : columns.length ≠ 0 := by
    intro h
    exact hcols (List.length_eq_zero.mp h)
  -- the three kinds of built lines and their cell values
  set valsH := columns.map TableColumn.header with hvalsH
  set valsS := columns.map (fun _ => ("---" : String)) with hvalsS
  have hneH : valsH ≠ [] := by
    rw [hvalsH]
    simpa [List.map_eq_nil_iff] using hcols
  have hneS : valsS ≠ [] := by
    rw [hvalsS]
    simpa [List.map_eq_nil_iff] using hcols
  have hlenH : valsH.length = columns.length := by rw [hvalsH, List.length_map]
  have hlenS : valsS.length = columns.length := by rw [hvalsS, List.length_map]
  have hsafeHp : ∀ v ∈ valsH, '|' ∉ v.data := by
    intro v hv
    obtain ⟨col, hcol, rfl⟩ := List.mem_map.mp hv
    exact (hheader col hcol).1
  have hsafeHn : ∀ v ∈ valsH, '\n' ∉ v.data := by
    intro v hv
    obtain ⟨col, hcol, rfl⟩ := List.mem_map.mp hv
    exact (hheader col hcol).2
  have hsafeSp : ∀ v ∈ valsS, '|' ∉ v.data := by
    intro v hv
    obtain ⟨col, _, rfl⟩ := List.mem_map.mp hv
    decide
  have hsafeSn : ∀ v ∈ valsS, '\n' ∉ v.data := by
    intro v hv
    obtain ⟨col, _, rfl⟩ := List.mem_map.mp hv
    decide
  have hsafeDp : ∀ row ∈ rows, ∀ v ∈ columns.map (fun col => renderCell row col),
      '|' ∉ v.data := by
    intro row hrow v hv
    obtain ⟨col, hcol, rfl⟩ := List.mem_map.mp hv
    exact (hcells row hrow col hcol).1
  have hsafeDn : ∀ row ∈ rows, ∀ v ∈ columns.map (fun col => renderCell row col),
      '\n' ∉ v.data := by
    intro row hrow v hv
    obtain ⟨col, hcol, rfl⟩ := List.mem_map.mp hv
    exact (hcells row hrow col hcol).2
  have hneD : ∀ row : TableRow, columns.map (fun col => renderCell row col) ≠ [] := by
    intro row
    simpa [List.map_eq_nil_iff] using hcols
  have hlenD : ∀ row : TableRow,
      (columns.map (fun col => renderCell row col)).length = columns.length :=
    fun _ => List.length_map _ _
  -- the built string
  have hbuild : build_table_md rows columns =
      joinSep "\n" (("| " ++ joinSep " | " valsH ++ " |") ::
        ("| " ++ joinSep " | " valsS ++ " |") ::
        rows.map (fun row =>
          "| " ++ joinSep " | " (columns.map fun col => renderCell row col) ++ " |")) := by
    unfold build_table_md
    rw [if_neg (by
      push_neg
      exact ⟨hrows, hcols⟩)]
  set allLines := ("| " ++ joinSep " | " valsH ++ " |") ::
    ("| " ++ joinSep " | " valsS ++ " |") ::
    rows.map (fun row =>
      "| " ++ joinSep " | " (columns.map fun col => renderCell row col) ++ " |")
    with hallLines
  -- every built line starts and ends with a pipe and contains no newline
  have hlineHead : ∀ l ∈ allLines.map String.data, l.head? = some '|' := by
    intro l hl
    obtain ⟨line, hline, rfl⟩ := List.mem_map.mp hl
    rw [hallLines] at hline
    rcases List.mem_cons.mp hline with rfl | hline'
    · exact table_line_head? valsH
    · rcases List.mem_cons.mp hline' with rfl | hline''
      · exact table_line_head? valsS
      · obtain ⟨row, _, rfl⟩ := List.mem_map.mp hline''
        exact table_line_head? _
  have hlineLast : ∀ l ∈ allLines.map String.data, l.getLast? = some '|' := by
    intro l hl
    obtain ⟨line, hline, rfl⟩ := List.mem_map.mp hl
    rw [hallLines] at hline
    rcases List.mem_cons.mp hline with rfl | hline'
    · exact table_line_getLast? valsH
    · rcases List.mem_cons.mp hline' with rfl | hline''
      · exact table_line_getLast? valsS
      · obtain ⟨row, _, rfl⟩ := List.mem_map.mp hline''
        exact table_line_getLast? _
  have hlineNl : ∀ l ∈ allLines.map String.data, '\n' ∉ l := by
    intro l hl
    obtain ⟨line, hline, rfl⟩ := List.mem_map.mp hl
    rw [hallLines] at hline
    rcases List.mem_cons.mp hline with rfl | hline'
    · exact table_line_not_newline valsH hsafeHn
    · rcases List.mem_cons.mp hline' with rfl | hline''
      · exact table_line_not_newline valsS hsafeSn
      · obtain ⟨row, hrow, rfl⟩ := List.mem_map.mp hline''
        exact table_line_not_newline _ (hsafeDn row hrow)
  have hmapne : allLines.map String.data ≠ [] := by
    rw [hallLines]
    simp
  -- the join strips to itself and splits back into the lines
  have hrawdata : (joinSep "\n" allLines).data =
      charJoin ['\n'] (allLines.map String.data) := by
    rw [joinSep_data]
  have hstripraw : pyStrip (joinSep "\n" allLines) = joinSep "\n" allLines := by
    unfold pyStrip
    rw [stripChars_eq_self _
      (fun x hx => by
        rw [hrawdata, charJoin_head?_pipe ['\n'] _ hmapne hlineHead] at hx
        cases hx
        rfl)
      (fun x hx => by
        rw [hrawdata, charJoin_getLast?_pipe ['\n'] _ hmapne hlineLast] at hx
        cases hx
        rfl)]
  have hsplitraw : pySplit (pyStrip (joinSep "\n" allLines)) '\n' = allLines := by
    rw [hstripraw]
    unfold pySplit
    rw [hrawdata, splitChar_charJoin '\n' _ hmapne hlineNl, map_mk_data]
  -- assemble
  rw [hbuild, parse_table_data_eq_filterMap, hsplitraw, hallLines]
  rw [List.filterMap_cons_some
    (parseLineFn_table_line columns valsH hneH hlenH hsafeHp)]
  rw [List.filterMap_cons_some
    (parseLineFn_table_line columns valsS hneS hlenS hsafeSp)]
  rw [List.filterMap_map]
  rw [filterMap_eq_map_of_some
    (parseLineFn columns ∘ fun row =>
      "| " ++ joinSep " | " (List.map (fun col => renderCell row col) columns) ++ " |")
    (fun row => (⟨mkRowValues columns
      (("" :: (columns.map fun col => renderCell row col).map pyStrip).take
        columns.length)⟩ : TableRow))
    rows
    (fun row hrow => parseLineFn_table_line columns _ (hneD row) (hlenD row)
      (hsafeDp row hrow))]
  have hstripS : List.map pyStrip valsS = valsS := by
    rw [hvalsS, List.map_map]
    apply List.map_congr_left
    intro col _
    rfl
  rw [hstripS, hvalsH]
  simp only [List.map_map]
  rfl

/-- Columns for the C1 witness: one text column and one stars column. -/
def colsW : List TableColumn :=
  [{ name := "item", header := "Item" },
   { name := "rating", header := "Rating", type := "stars" }]

/-- Rows for the C1 witness. -/
def rowsW : List TableRow := [⟨[("item", "a"), ("rating", "4")]⟩]

/-- C1 witness: the amended shift equation evaluated on a concrete table. -/
theorem markdown_roundtrip_amended_witness :
    (rowsW ≠ [] ∧ colsW ≠ []
      ∧ (∀ col ∈ colsW, '|' ∉ col.header.data ∧ '\n' ∉ col.header.data)
      ∧ (∀ row ∈ rowsW, ∀ col ∈ colsW,
          '|' ∉ (renderCell row col).data ∧ '\n' ∉ (renderCell row col).data))
    ∧ parse_table_data (build_table_md rowsW colsW) colsW =
        ⟨mkRowValues colsW
          (("" :: colsW.map fun col => pyStrip col.header).take colsW.length)⟩ ::
        ⟨mkRowValues colsW
          (("" :: colsW.map fun _ => ("---" : String)).take colsW.length)⟩ ::
        rowsW.map (fun row => ⟨mkRowValues colsW
          (("" :: colsW.map fun col => pyStrip (renderCell row col)).take
            colsW.length)⟩) :=
  ⟨⟨by decide, by decide, by decide, by decide⟩,
   markdown_roundtrip_amended rowsW colsW (by decide) (by decide) (by decide)
     (by decide)⟩
